import Mathlib

/-
Verification of the Event Hubs producer-side connection/session/link
lifecycle manager
(`sdk/eventhubs/azure_messaging_eventhubs/src/producer/mod.rs`).

The producer client owns one transport connection, a token cache keyed by
authorization path, a pool of sender links keyed by destination path, and a
lazily created management link.  The Rust code is `async`; every network
operation (`connection.open`, `session.begin`, CBS attach, `get_token`,
CBS `authorize_path`, sender `attach`, `send`, management attach/query) is
an `await` point.

Two embeddings are developed:

1. A sequential functional model: each producer method becomes a Lean
   function from an environment (the outcome of each external network
   operation, which the code consumes as an opaque success/failure) and a
   client state to a result, an updated state, and the trace of network
   and lock operations it performed.  This is the authority for all
   claims about a single call's behaviour.

2. Small-step interleaving machines for the three lock disciplines the
   code uses: the `OnceLock` connection cell (check, then `open().await`,
   then `set`), the pool-wide `sender_instances` mutex held across the
   whole link creation, and the `authorization_scopes` mutex held from
   the presence check through the insert.  These settle the concurrency
   claims.
-/

namespace EventHubs

/-! ## Basic data -/

/-- An access token as returned by the credential collaborator:
an opaque secret plus an expiry instant (`expires_on`). -/
structure AccessToken where
  secret : String
  expiresOn : Nat
deriving DecidableEq, Repr

/-- The error taxonomy of the producer module.  `missingConnection`,
`missingManagementClient`, `missingMessageSender` and
`unableToAddAuthenticationToken` are the `ErrorKind` variants named by
`producer/mod.rs`; `transportError` stands for an error surfaced verbatim
from an AMQP operation, `urlParseError` for a `Url::parse` failure, and
`tokenAcquisitionError` for a failed `get_token` call. -/
inductive ErrorKind where
  | missingConnection
  | missingManagementClient
  | missingMessageSender
  | unableToAddAuthenticationToken
  | transportError (op : String)
  | urlParseError
  | tokenAcquisitionError
deriving DecidableEq, Repr

/-- `azure_core::Result`. -/
abbrev EHResult (α : Type) := Except ErrorKind α

instance {ε α : Type} [DecidableEq ε] [DecidableEq α] : DecidableEq (Except ε α) := fun x y =>
  match x, y with
  | .ok a, .ok b =>
    match decEq a b with
    | .isTrue h => .isTrue (h ▸ rfl)
    | .isFalse h => .isFalse (fun hc => h (Except.ok.inj hc))
  | .error a, .error b =>
    match decEq a b with
    | .isTrue h => .isTrue (h ▸ rfl)
    | .isFalse h => .isFalse (fun hc => h (Except.error.inj hc))
  | .ok _, .error _ => .isFalse (fun hc => Except.noConfusion hc)
  | .error _, .ok _ => .isFalse (fun hc => Except.noConfusion hc)

/-- The observable operations a producer call performs.  Network
operations are the `await`ed AMQP/credential calls; `lockPool` and
`lockSender` record acquisitions of the sender-pool mutex and of an
individual sender's mutex (sender mutexes are identified by the numeric
handle of the `Arc<Mutex<AmqpSender>>` they guard). -/
inductive NetOp where
  | connectionOpen (containerId : Option String) (url : String)
  | sessionBegin
  | cbsAttach
  | getToken (scopes : List String)
  | cbsAuthorizePath (path : String) (secret : String) (expiresOn : Nat)
  | senderAttach (name : String) (path : String) (maxMessageSize : Nat)
  | send (messages : List String) (messageFormat : Option Nat)
  | managementAttach
  | managementQuery (eventhub : String) (partitionId : Option String)
  | lockPool
  | lockSender (handle : Nat)
deriving DecidableEq, Repr

/-- True for the operations that reach the network; lock operations are
purely local. -/
def NetOp.isNetworkOp : NetOp → Bool
  | .lockPool => false
  | .lockSender _ => false
  | _ => true

/-- True exactly for `send` operations. -/
def NetOp.isSend : NetOp → Bool
  | .send _ _ => true
  | _ => false

/-! ## Association-list maps (the two `HashMap`s of the client) -/

/-- Lookup in an association list (`HashMap::get` / `contains_key`). -/
def alookup (k : String) : List (String × α) → Option α
  | [] => none
  | (k', v) :: m => if k' = k then some v else alookup k m

/-- Remove every binding of a key. -/
def aremove (k : String) (m : List (String × α)) : List (String × α) :=
  m.filter (fun kv => kv.1 ≠ k)

/-- `HashMap::insert`: stores `(k, v)` and returns the previous value
bound to `k`, if any (`Some` exactly when the key was already present). -/
def ainsert (k : String) (v : α) (m : List (String × α)) :
    Option α × List (String × α) :=
  (alookup k m, (k, v) :: aremove k m)

/-- Number of bindings for a key. -/
def keyCount (k : String) (m : List (String × α)) : Nat :=
  (m.filter (fun kv => kv.1 = k)).length

/-! ## Client state -/

/-- One entry of the sender pool: the session that hosts the link and the
shared sender handle (`Arc<Mutex<AmqpSender>>`), both identified by
numeric ids allocated at creation. -/
structure SenderInstance where
  session : Nat
  sender : Nat
deriving DecidableEq, Repr

/-- The lazily created management client (`ManagementInstance` lives in
the `common` module; here only its identity matters). -/
structure ManagementInstance where
  management : Nat
deriving DecidableEq, Repr

/-- `ProducerClientOptions`: the application id and maximum message size.
The retry options are passed through without being interpreted by this
module, so they are not modelled. -/
structure ProducerClientOptions where
  applicationId : Option String
  maxMessageSize : Option Nat
deriving DecidableEq, Repr

/-- The state of a `ProducerClient`: its options, the sender pool
(`sender_instances`), the management cell (`mgmt_client`), the connection
cell (`connection`, a `OnceLock`), the Event Hub name, the base URL and
the token cache (`authorization_scopes`).  `nextId` is the model's supply
of fresh identities for connections, sessions, senders and management
links. -/
structure ProducerClient where
  options : ProducerClientOptions
  senderInstances : List (String × SenderInstance)
  mgmtClient : Option ManagementInstance
  connection : Option Nat
  eventhub : String
  url : String
  authorizationScopes : List (String × AccessToken)
  nextId : Nat
deriving DecidableEq, Repr

/-- `ProducerClient::new`: empty caches, no connection, base URL
`amqps://<namespace>/<eventhub>`. -/
def ProducerClient.new (fullyQualifiedNamespace eventhub : String)
    (options : Option ProducerClientOptions) : ProducerClient :=
  { options := options.getD ⟨none, none⟩
    senderInstances := []
    mgmtClient := none
    connection := none
    eventhub := eventhub
    url := "amqps://" ++ fullyQualifiedNamespace ++ "/" ++ eventhub
    authorizationScopes := []
    nextId := 0 }

/-- `ProducerClient::base_url`. -/
def ProducerClient.base_url (c : ProducerClient) : String := c.url

/-- `ProducerClient::BATCH_MESSAGE_FORMAT`. -/
def BATCH_MESSAGE_FORMAT : Nat := 0x80013700

/-- The default application name used to build the sender link name when
no application id is configured. -/
def DEFAULT_EVENTHUBS_APPLICATION : String := "DefaultApplicationName"

/-- The fixed resource scope requested from the credential. -/
def eventhubsTokenScopes : List String := ["https://eventhubs.azure.net/.default"]

/-- Modelled from the spec: a batch is an ordered sequence of pre-encoded
messages plus a destination path (the `batch` module is an external
collaborator of this core; `get_batch_path`/`get_messages` are plain
accessors). -/
structure EventDataBatch where
  batchPath : String
  messages : List String
deriving DecidableEq, Repr

/-- Modelled from the spec: `EventDataBatch::get_batch_path`. -/
def EventDataBatch.get_batch_path (b : EventDataBatch) : String := b.batchPath

/-- Modelled from the spec: `EventDataBatch::get_messages`. -/
def EventDataBatch.get_messages (b : EventDataBatch) : List String := b.messages

/-! ## The external environment

The code consumes each network operation as an opaque success/failure.
`Env` fixes the outcome of each call site's operation for one producer
call: URL parsing (the `url` crate), the connection open, the session
begins (one flag per call site), the CBS attach, the token acquisition,
the CBS put-token, the sender attach, the send, and the management
attach/query. -/
structure Env where
  urlParseOk : String → Bool
  connectionOpenOk : Bool
  authSessionBeginOk : Bool
  cbsAttachOk : Bool
  getTokenResult : Option AccessToken
  cbsAuthorizeOk : Bool
  senderSessionBeginOk : Bool
  senderAttachOk : Bool
  sendOk : Bool
  mgmtSessionBeginOk : Bool
  mgmtAttachOk : Bool
  mgmtQueryOk : Bool

/-! ## Sequential model of the producer methods -/

/-- `ProducerClient::ensure_connection`.  If the `OnceLock` already holds
a connection, nothing happens.  Otherwise a new connection is opened
against `url` (identity = configured application id, or a generated
unique id when `none`) and stored; a failed parse or open stores nothing.
In this sequential model the `OnceLock::set` cannot lose a race, so it
always succeeds; the interleaved behaviour is the `Conn` machine below. -/
def ensure_connection (env : Env) (c : ProducerClient) (url : String) :
    EHResult Unit × ProducerClient × List NetOp :=
  if c.connection.isSome then (.ok (), c, [])
  else if ¬ env.urlParseOk url then (.error .urlParseError, c, [])
  else if env.connectionOpenOk then
    (.ok (), { c with connection := some c.nextId, nextId := c.nextId + 1 },
      [.connectionOpen c.options.applicationId url])
  else
    (.error (.transportError "connection open"), c,
      [.connectionOpen c.options.applicationId url])

/-- `ProducerClient::authorize_path`.  The whole body runs with the
`authorization_scopes` mutex held.  Checks the connection, then the
cache; on a miss it begins an ephemeral session, attaches a CBS link,
acquires a token for the fixed scope, submits it to the CBS peer for
`url`, and inserts the token.  Mirrors the source's post-insert duplicate
check and final `get`. -/
def authorize_path (env : Env) (c : ProducerClient) (url : String) :
    EHResult AccessToken × ProducerClient × List NetOp :=
  if c.connection.isNone then (.error .missingConnection, c, [])
  else
    match alookup url c.authorizationScopes with
    | some token => (.ok token, c, [])
    | none =>
      if ¬ env.authSessionBeginOk then
        (.error (.transportError "session begin"), c, [.sessionBegin])
      else if ¬ env.cbsAttachOk then
        (.error (.transportError "cbs attach"), c, [.sessionBegin, .cbsAttach])
      else
        match env.getTokenResult with
        | none =>
          (.error .tokenAcquisitionError, c,
            [.sessionBegin, .cbsAttach, .getToken eventhubsTokenScopes])
        | some token =>
          if ¬ env.cbsAuthorizeOk then
            (.error (.transportError "cbs authorize"), c,
              [.sessionBegin, .cbsAttach, .getToken eventhubsTokenScopes,
               .cbsAuthorizePath url token.secret token.expiresOn])
          else
            let inserted := ainsert url token c.authorizationScopes
            let c' := { c with authorizationScopes := inserted.2 }
            let tr := [NetOp.sessionBegin, .cbsAttach,
                       .getToken eventhubsTokenScopes,
                       .cbsAuthorizePath url token.secret token.expiresOn]
            if inserted.1.isSome then
              (.error .unableToAddAuthenticationToken, c', tr)
            else
              match alookup url c'.authorizationScopes with
              | some t => (.ok t, c', tr)
              | none => (.error .unableToAddAuthenticationToken, c', tr)

/-- The sender link name: `"<application id or default>-rust-sender"`. -/
def senderLinkName (c : ProducerClient) : String :=
  (c.options.applicationId.getD DEFAULT_EVENTHUBS_APPLICATION) ++ "-rust-sender"

/-- The maximum message size passed to the sender attach
(`max_message_size.unwrap_or(u64::MAX)`). -/
def senderMaxMessageSize (c : ProducerClient) : Nat :=
  c.options.maxMessageSize.getD (2 ^ 64 - 1)

/-- `ProducerClient::ensure_sender`.  The whole body runs with the
`sender_instances` mutex held (recorded as `lockPool`).  On a pool miss it
ensures the connection (using `path` as the open URL), re-reads the
connection cell, authorizes `path`, begins a session with maximal
flow-control windows, attaches a sender link, inserts the pair, and
returns the shared handle found by the final lookup.  On a hit it returns
the cached handle with no network work. -/
def ensure_sender (env : Env) (c : ProducerClient) (path : String) :
    EHResult Nat × ProducerClient × List NetOp :=
  match alookup path c.senderInstances with
  | some inst => (.ok inst.sender, c, [.lockPool])
  | none =>
    match ensure_connection env c path with
    | (.error e, c1, tr1) => (.error e, c1, .lockPool :: tr1)
    | (.ok _, c1, tr1) =>
      if c1.connection.isNone then (.error .missingConnection, c1, .lockPool :: tr1)
      else
        match authorize_path env c1 path with
        | (.error e, c2, tr2) => (.error e, c2, .lockPool :: (tr1 ++ tr2))
        | (.ok _, c2, tr2) =>
          if ¬ env.senderSessionBeginOk then
            (.error (.transportError "session begin"), c2,
              .lockPool :: (tr1 ++ tr2 ++ [.sessionBegin]))
          else if ¬ env.senderAttachOk then
            (.error (.transportError "sender attach"), c2,
              .lockPool :: (tr1 ++ tr2 ++
                [.sessionBegin,
                 .senderAttach (senderLinkName c2) path (senderMaxMessageSize c2)]))
          else
            let inst : SenderInstance := ⟨c2.nextId, c2.nextId + 1⟩
            let inserted := ainsert path inst c2.senderInstances
            let c3 := { c2 with senderInstances := inserted.2, nextId := c2.nextId + 2 }
            let tr := NetOp.lockPool :: (tr1 ++ tr2 ++
              [.sessionBegin,
               .senderAttach (senderLinkName c2) path (senderMaxMessageSize c2)])
            match alookup path c3.senderInstances with
            | some inst' => (.ok inst'.sender, c3, tr)
            | none => (.error .missingMessageSender, c3, tr)

/-- `ProducerClient::submit_batch`: resolve the batch path, obtain the
shared sender from the pool, lock that sender, and send the batch's
message sequence with `message_format = BATCH_MESSAGE_FORMAT`. -/
def submit_batch (env : Env) (c : ProducerClient) (batch : EventDataBatch) :
    EHResult Unit × ProducerClient × List NetOp :=
  match ensure_sender env c batch.get_batch_path with
  | (.error e, c1, tr1) => (.error e, c1, tr1)
  | (.ok handle, c1, tr1) =>
    let tr := tr1 ++ [NetOp.lockSender handle,
                      .send batch.get_messages (some BATCH_MESSAGE_FORMAT)]
    if env.sendOk then (.ok (), c1, tr)
    else (.error (.transportError "send"), c1, tr)

/-- `ProducerClient::open`: force connection creation against the base
URL. -/
def producer_open (env : Env) (c : ProducerClient) :
    EHResult Unit × ProducerClient × List NetOp :=
  ensure_connection env c c.url

/-- `ProducerClient::ensure_management_client`.  The body runs with the
`mgmt_client` mutex held.  No-op when the management client exists; fails
with `missingConnection` when no connection exists; otherwise begins a
session, authorizes `<base url>/$management`, attaches the management
endpoint (`AmqpManagement::new` is an infallible constructor in this
model) and stores it. -/
def ensure_management_client (env : Env) (c : ProducerClient) :
    EHResult Unit × ProducerClient × List NetOp :=
  if c.mgmtClient.isSome then (.ok (), c, [])
  else if c.connection.isNone then (.error .missingConnection, c, [])
  else if ¬ env.mgmtSessionBeginOk then
    (.error (.transportError "session begin"), c, [.sessionBegin])
  else
    let management_path := c.url ++ "/$management"
    match authorize_path env c management_path with
    | (.error e, c1, tr) => (.error e, c1, .sessionBegin :: tr)
    | (.ok _, c1, tr) =>
      if ¬ env.mgmtAttachOk then
        (.error (.transportError "management attach"), c1,
          .sessionBegin :: (tr ++ [.managementAttach]))
      else
        (.ok (),
          { c1 with mgmtClient := some ⟨c1.nextId⟩, nextId := c1.nextId + 1 },
          .sessionBegin :: (tr ++ [.managementAttach]))

/-- `ProducerClient::get_eventhub_properties`: ensure the management
client, then issue the query through it (the query itself is a
pass-through to the management collaborator; modelled from the spec as an
opaque operation). -/
def get_eventhub_properties (env : Env) (c : ProducerClient) :
    EHResult Unit × ProducerClient × List NetOp :=
  match ensure_management_client env c with
  | (.error e, c1, tr) => (.error e, c1, tr)
  | (.ok _, c1, tr) =>
    match c1.mgmtClient with
    | none => (.error .missingManagementClient, c1, tr)
    | some _ =>
      if env.mgmtQueryOk then
        (.ok (), c1, tr ++ [.managementQuery c1.eventhub none])
      else
        (.error (.transportError "management query"), c1,
          tr ++ [.managementQuery c1.eventhub none])

/-- `ProducerClient::get_partition_properties`: same shape as
`get_eventhub_properties` with a partition id. -/
def get_partition_properties (env : Env) (c : ProducerClient)
    (partitionId : String) :
    EHResult Unit × ProducerClient × List NetOp :=
  match ensure_management_client env c with
  | (.error e, c1, tr) => (.error e, c1, tr)
  | (.ok _, c1, tr) =>
    match c1.mgmtClient with
    | none => (.error .missingManagementClient, c1, tr)
    | some _ =>
      if env.mgmtQueryOk then
        (.ok (), c1, tr ++ [.managementQuery c1.eventhub (some partitionId)])
      else
        (.error (.transportError "management query"), c1,
          tr ++ [.managementQuery c1.eventhub (some partitionId)])

/-! ## Association-list lemmas -/

theorem alookup_cons_self {α : Type} (k : String) (v : α) (m : List (String × α)) :
    alookup k ((k, v) :: m) = some v := by
  simp [alookup]

theorem alookup_aremove_self {α : Type} (k : String) (m : List (String × α)) :
    alookup k (aremove k m) = none := by
  induction m with
  | nil => rfl
  | cons kv m ih =>
    by_cases h : kv.1 = k
    · simpa [aremove, h] using ih
    · simpa [aremove, List.filter_cons, h, alookup] using ih

theorem keys_aremove_not_mem {α : Type} (k : String) (m : List (String × α)) :
    k ∉ (aremove k m).map Prod.fst := by
  intro hmem
  rcases List.mem_map.mp hmem with ⟨kv, hkv, hfst⟩
  have := List.of_mem_filter hkv
  simp [hfst] at this

theorem nodup_keys_aremove {α : Type} (k : String) (m : List (String × α))
    (h : (m.map Prod.fst).Nodup) : ((aremove k m).map Prod.fst).Nodup := by
  have hsub : List.Sublist (aremove k m) m := List.filter_sublist m
  exact List.Nodup.sublist (List.Sublist.map Prod.fst hsub) h

theorem nodup_keys_ainsert {α : Type} (k : String) (v : α) (m : List (String × α))
    (h : (m.map Prod.fst).Nodup) :
    (((ainsert k v m).2).map Prod.fst).Nodup := by
  simp only [ainsert, List.map_cons, List.nodup_cons]
  exact ⟨keys_aremove_not_mem k m, nodup_keys_aremove k m h⟩

theorem keyCount_filter_aremove {α : Type} (k : String) (m : List (String × α)) :
    (aremove k m).filter (fun kv => kv.1 = k) = [] := by
  induction m with
  | nil => rfl
  | cons kv m ih =>
    by_cases h : kv.1 = k
    · simp [aremove, List.filter_cons, h, ih]
    · simp [aremove, List.filter_cons, h, ih]

theorem keyCount_ainsert_self {α : Type} (k : String) (v : α) (m : List (String × α)) :
    keyCount k ((ainsert k v m).2) = 1 := by
  simp [keyCount, ainsert, List.filter_cons, keyCount_filter_aremove]

theorem keyCount_le_one_of_nodup {α : Type} (k : String) (m : List (String × α))
    (h : (m.map Prod.fst).Nodup) : keyCount k m ≤ 1 := by
  induction m with
  | nil => simp [keyCount]
  | cons kv m ih =>
    simp only [List.map_cons, List.nodup_cons] at h
    by_cases hk : kv.1 = k
    · have : m.filter (fun kv => kv.1 = k) = [] := by
        apply List.filter_eq_nil_iff.mpr
        intro kv' hkv'
        intro hc
        exact h.1 (by
          have : kv'.1 = kv.1 := by
            simp at hc
            rw [hc, hk]
          exact this ▸ List.mem_map_of_mem Prod.fst hkv')
      simp [keyCount, List.filter_cons, hk, this]
    · simpa [keyCount, List.filter_cons, hk] using ih h.2

theorem keyCount_pos_of_alookup {α : Type} (k : String) (v : α)
    (m : List (String × α)) (h : alookup k m = some v) : 1 ≤ keyCount k m := by
  induction m with
  | nil => simp [alookup] at h
  | cons kv m ih =>
    by_cases hk : kv.1 = k
    · simp [keyCount, List.filter_cons, hk]
    · rcases kv with ⟨k', v'⟩
      simp only [alookup] at h
      rw [if_neg (by simpa using hk)] at h
      simpa [keyCount, List.filter_cons, hk] using ih h

/-! ## Characterization lemmas for the sequential model -/

theorem ensure_connection_of_some {env : Env} {c : ProducerClient} {k : Nat}
    (h : c.connection = some k) (url : String) :
    ensure_connection env c url = (.ok (), c, []) := by
  simp [ensure_connection, h]

theorem ensure_connection_ok_isSome {env : Env} {c : ProducerClient} {url : String}
    {c' : ProducerClient} {tr : List NetOp}
    (h : (ensure_connection env c url) = (.ok (), c', tr)) :
    c'.connection.isSome := by
  unfold ensure_connection at h
  split at h
  · rename_i hsome
    simp only [Prod.mk.injEq] at h
    obtain ⟨-, hc, -⟩ := h
    exact hc ▸ hsome
  · split at h
    · simp at h
    · split at h
      · simp only [Prod.mk.injEq] at h
        obtain ⟨-, hc, -⟩ := h
        subst hc
        simp
      · simp at h

theorem ensure_connection_ne_missing (env : Env) (c : ProducerClient) (url : String) :
    (ensure_connection env c url).1 ≠ .error .missingConnection := by
  unfold ensure_connection
  split
  · simp
  · split
    · simp
    · split <;> simp

theorem ensure_connection_frame {env : Env} {c : ProducerClient} {url : String} :
    (ensure_connection env c url).2.1.senderInstances = c.senderInstances ∧
    (ensure_connection env c url).2.1.authorizationScopes = c.authorizationScopes ∧
    (ensure_connection env c url).2.1.mgmtClient = c.mgmtClient ∧
    (ensure_connection env c url).2.1.options = c.options ∧
    (ensure_connection env c url).2.1.url = c.url ∧
    (ensure_connection env c url).2.1.eventhub = c.eventhub := by
  unfold ensure_connection
  split
  · simp
  · split
    · simp
    · split <;> simp

/-- Case analysis of `authorize_path`: missing connection; cache hit (no
work, state unchanged); failure of one of the CBS steps (state unchanged,
only non-send network operations performed); or full success with the
token inserted at `url` and the CBS handshake in the trace. -/
theorem authorize_path_spec (env : Env) (c : ProducerClient) (url : String) :
    (c.connection = none ∧
      authorize_path env c url = (.error .missingConnection, c, []))
  ∨ (∃ tok, c.connection.isSome ∧ alookup url c.authorizationScopes = some tok ∧
      authorize_path env c url = (.ok tok, c, []))
  ∨ (∃ e tr, c.connection.isSome ∧ alookup url c.authorizationScopes = none ∧
      e ≠ ErrorKind.missingConnection ∧
      e ≠ ErrorKind.unableToAddAuthenticationToken ∧
      (∀ op ∈ tr, op.isNetworkOp = true ∧ op.isSend = false) ∧
      (∀ p s x, NetOp.cbsAuthorizePath p s x ∈ tr → p = url) ∧
      authorize_path env c url = (.error e, c, tr))
  ∨ (∃ tok, c.connection.isSome ∧ alookup url c.authorizationScopes = none ∧
      env.getTokenResult = some tok ∧
      authorize_path env c url =
        (.ok tok,
         { c with authorizationScopes := (url, tok) :: aremove url c.authorizationScopes },
         [NetOp.sessionBegin, .cbsAttach, .getToken eventhubsTokenScopes,
          .cbsAuthorizePath url tok.secret tok.expiresOn])) := by
  cases hconn : c.connection with
  | none =>
    left
    exact ⟨rfl, by simp [authorize_path, hconn]⟩
  | some k =>
    right
    cases hl : alookup url c.authorizationScopes with
    | some tok =>
      left
      exact ⟨tok, by simp [hconn], by simp, by simp [authorize_path, hconn, hl]⟩
    | none =>
      right
      by_cases h1 : env.authSessionBeginOk
      · by_cases h2 : env.cbsAttachOk
        · cases htok : env.getTokenResult with
          | none =>
            left
            refine ⟨.tokenAcquisitionError,
              [NetOp.sessionBegin, .cbsAttach, .getToken eventhubsTokenScopes],
              by simp [hconn], by simp, by simp, by simp, ?_, by simp,
              by simp [authorize_path, hconn, hl, h1, h2, htok]⟩
            intro op hop
            fin_cases hop <;> simp [NetOp.isNetworkOp, NetOp.isSend]
          | some tok =>
            by_cases h3 : env.cbsAuthorizeOk
            · right
              refine ⟨tok, by simp [hconn], by simp, by simp, ?_⟩
              simp [authorize_path, hconn, hl, h1, h2, htok, h3, ainsert, alookup_cons_self]
            · left
              refine ⟨.transportError "cbs authorize",
                [NetOp.sessionBegin, .cbsAttach, .getToken eventhubsTokenScopes,
                 .cbsAuthorizePath url tok.secret tok.expiresOn],
                by simp [hconn], by simp, by simp, by simp, ?_, ?_,
                by simp [authorize_path, hconn, hl, h1, h2, htok, h3]⟩
              · intro op hop
                fin_cases hop <;> simp [NetOp.isNetworkOp, NetOp.isSend]
              · intro p sec x hmem
                simp at hmem
                exact hmem.1
        · left
          refine ⟨.transportError "cbs attach", [NetOp.sessionBegin, .cbsAttach],
            by simp [hconn], by simp, by simp, by simp, ?_, by simp,
            by simp [authorize_path, hconn, hl, h1, h2]⟩
          intro op hop
          fin_cases hop <;> simp [NetOp.isNetworkOp, NetOp.isSend]
      · left
        refine ⟨.transportError "session begin", [NetOp.sessionBegin],
          by simp [hconn], by simp, by simp, by simp, ?_, by simp,
          by simp [authorize_path, hconn, hl, h1]⟩
        intro op hop
        fin_cases hop
        simp [NetOp.isNetworkOp, NetOp.isSend]

/-- Case analysis of `ensure_connection`: existing connection (no-op);
URL parse failure; successful open and store; failed open (cell left
empty). -/
theorem ensure_connection_spec (env : Env) (c : ProducerClient) (url : String) :
    (∃ k, c.connection = some k ∧ ensure_connection env c url = (.ok (), c, []))
  ∨ (c.connection = none ∧ env.urlParseOk url = false ∧
      ensure_connection env c url = (.error .urlParseError, c, []))
  ∨ (c.connection = none ∧ env.urlParseOk url = true ∧ env.connectionOpenOk = true ∧
      ensure_connection env c url =
        (.ok (), { c with connection := some c.nextId, nextId := c.nextId + 1 },
         [.connectionOpen c.options.applicationId url]))
  ∨ (c.connection = none ∧ env.urlParseOk url = true ∧ env.connectionOpenOk = false ∧
      ensure_connection env c url =
        (.error (.transportError "connection open"), c,
         [.connectionOpen c.options.applicationId url])) := by
  cases hconn : c.connection with
  | some k =>
    left
    exact ⟨k, rfl, by simp [ensure_connection, hconn]⟩
  | none =>
    right
    by_cases hp : env.urlParseOk url
    · by_cases ho : env.connectionOpenOk
      · right; left
        exact ⟨rfl, hp, ho, by simp [ensure_connection, hconn, hp, ho]⟩
      · right; right
        exact ⟨rfl, hp, by simpa using ho, by simp [ensure_connection, hconn, hp, ho]⟩
    · left
      exact ⟨rfl, by simpa using hp, by simp [ensure_connection, hconn, hp]⟩

/-- An error result of `authorize_path` leaves the client unchanged, is
never the duplicate-insert error, and the trace carries no sends; with a
connection present it is never `missingConnection` either. -/
theorem authorize_path_err_char {env : Env} {c : ProducerClient} {url : String}
    {e : ErrorKind} {c' : ProducerClient} {tr : List NetOp}
    (h : authorize_path env c url = (.error e, c', tr)) :
    c' = c ∧ e ≠ ErrorKind.unableToAddAuthenticationToken ∧
    (∀ op ∈ tr, op.isSend = false) ∧
    (∀ p s x, NetOp.cbsAuthorizePath p s x ∈ tr → p = url) ∧
    (c.connection.isSome → e ≠ ErrorKind.missingConnection) := by
  rcases authorize_path_spec env c url with
    ⟨hc, heq⟩ | ⟨t, hc, hl, heq⟩ | ⟨e', tr', hc, hl, hm, hu, hops, hcbs, heq⟩ |
    ⟨t, hc, hl, ht, heq⟩
  · rw [h] at heq
    simp only [Prod.mk.injEq] at heq
    obtain ⟨he, hcc, htr⟩ := heq
    subst hcc
    refine ⟨rfl, ?_, ?_, ?_, ?_⟩
    · cases he; simp
    · intro op hop; rw [htr] at hop; simp at hop
    · intro p sx x hop; rw [htr] at hop; simp at hop
    · intro hs; rw [hc] at hs; simp at hs
  · rw [h] at heq; simp at heq
  · rw [h] at heq
    simp only [Prod.mk.injEq] at heq
    obtain ⟨he, hcc, htr⟩ := heq
    subst hcc
    cases he
    exact ⟨rfl, hu, fun op hop => (hops op (htr ▸ hop)).2,
      fun p sx x hop => hcbs p sx x (htr ▸ hop), fun _ => hm⟩
  · rw [h] at heq; simp at heq

/-- A successful `authorize_path` had a connection, only (possibly)
extends the token cache at `url`, and afterwards the cache holds the
returned token at `url`; on a fresh insert the CBS handshake for `url`
is in the trace. -/
theorem authorize_path_ok_char {env : Env} {c : ProducerClient} {url : String}
    {tok : AccessToken} {c' : ProducerClient} {tr : List NetOp}
    (h : authorize_path env c url = (.ok tok, c', tr)) :
    c.connection.isSome ∧ c'.connection = c.connection ∧
    c'.senderInstances = c.senderInstances ∧ c'.mgmtClient = c.mgmtClient ∧
    c'.options = c.options ∧ c'.url = c.url ∧ c'.eventhub = c.eventhub ∧
    alookup url c'.authorizationScopes = some tok ∧
    (∀ op ∈ tr, op.isSend = false) ∧
    (∀ p s x, NetOp.cbsAuthorizePath p s x ∈ tr → p = url) ∧
    ((c' = c ∧ tr = []) ∨
      (alookup url c.authorizationScopes = none ∧
       c'.authorizationScopes = (url, tok) :: aremove url c.authorizationScopes ∧
       NetOp.cbsAuthorizePath url tok.secret tok.expiresOn ∈ tr)) := by
  rcases authorize_path_spec env c url with
    ⟨hc, heq⟩ | ⟨t, hc, hl, heq⟩ | ⟨e', tr', hc, hl, hm, hu, hops, hcbs, heq⟩ |
    ⟨t, hc, hl, ht, heq⟩
  · rw [h] at heq; simp at heq
  · rw [h] at heq
    simp only [Prod.mk.injEq, Except.ok.injEq] at heq
    obtain ⟨he, hcc, htr⟩ := heq
    subst hcc
    subst he
    refine ⟨hc, rfl, rfl, rfl, rfl, rfl, rfl, hl, ?_, ?_, Or.inl ⟨rfl, htr⟩⟩
    · intro op hop; rw [htr] at hop; simp at hop
    · intro p sx x hop; rw [htr] at hop; simp at hop
  · rw [h] at heq; simp at heq
  · rw [h] at heq
    simp only [Prod.mk.injEq, Except.ok.injEq] at heq
    obtain ⟨he, hcc, htr⟩ := heq
    subst he
    subst hcc
    refine ⟨hc, rfl, rfl, rfl, rfl, rfl, rfl, by simp [alookup_cons_self], ?_, ?_, ?_⟩
    · intro op hop; rw [htr] at hop
      fin_cases hop <;> simp [NetOp.isSend]
    · intro p sx x hop; rw [htr] at hop
      simp at hop
      exact hop.1
    · right
      exact ⟨hl, rfl, by rw [htr]; simp⟩

/-- With a connection present, `authorize_path` never fails with the
missing-connection error. -/
theorem authorize_path_ne_missing {env : Env} {c : ProducerClient} {url : String}
    (h : c.connection.isSome) :
    (authorize_path env c url).1 ≠ .error .missingConnection := by
  rcases hres : authorize_path env c url with ⟨r, c', tr⟩
  cases r with
  | ok v => simp
  | error e =>
    have := (authorize_path_err_char hres).2.2.2.2 h
    simpa using this

/-- A network operation is never a sender-lock operation. -/
theorem netop_ne_lockSender_of_network {op : NetOp} (h : op.isNetworkOp = true) :
    ∀ hd, op ≠ NetOp.lockSender hd := by
  intro hd heq
  subst heq
  simp [NetOp.isNetworkOp] at h

/-- Case analysis of `ensure_sender`: a pool hit returns the cached
handle with no network work and no state change; on a miss, the trace
never contains a send, the connection open (against `path`) is in the
trace whenever no connection existed and the URL parses, and the call
either fails — with an error other than `missingConnection`, leaving the
sender pool unchanged and the token cache unchanged at `path` unless it
now holds a fully CBS-established token — or succeeds with the returned
handle stored in the pool at `path`. -/
theorem ensure_sender_spec (env : Env) (c : ProducerClient) (path : String) :
    (∃ inst, alookup path c.senderInstances = some inst ∧
      ensure_sender env c path = (.ok inst.sender, c, [NetOp.lockPool]))
  ∨ (alookup path c.senderInstances = none ∧
     (∀ op ∈ (ensure_sender env c path).2.2,
        op.isSend = false ∧ ∀ hd, op ≠ NetOp.lockSender hd) ∧
     (c.connection = none → env.urlParseOk path = true →
       NetOp.connectionOpen c.options.applicationId path ∈ (ensure_sender env c path).2.2) ∧
     (((∃ e, (ensure_sender env c path).1 = .error e ∧ e ≠ ErrorKind.missingConnection) ∧
        ((ensure_sender env c path).2.1).senderInstances = c.senderInstances ∧
        (alookup path ((ensure_sender env c path).2.1).authorizationScopes
            = alookup path c.authorizationScopes ∨
          ∃ tok, alookup path ((ensure_sender env c path).2.1).authorizationScopes = some tok ∧
            NetOp.cbsAuthorizePath path tok.secret tok.expiresOn ∈
              (ensure_sender env c path).2.2))
      ∨ (∃ inst, (ensure_sender env c path).1 = .ok inst.sender ∧
          alookup path ((ensure_sender env c path).2.1).senderInstances = some inst))) := by
  cases hl : alookup path c.senderInstances with
  | some inst =>
    left
    exact ⟨inst, rfl, by simp [ensure_sender, hl]⟩
  | none =>
    right
    refine ⟨rfl, ?_⟩
    rcases ensure_connection_spec env c path with
      ⟨k, hconn, hec⟩ | ⟨hconn, hp, hec⟩ | ⟨hconn, hp, ho, hec⟩ | ⟨hconn, hp, ho, hec⟩
    · -- connection already exists; ensure_connection is a no-op
      rcases authorize_path_spec env c path with
        ⟨hc2, heq2⟩ | ⟨tok, _, hlk, heq2⟩ | ⟨e, tr2, _, hlk, hm, hu, hops, hcbs, heq2⟩ |
        ⟨tok, _, hlk, htok, heq2⟩
      · rw [hconn] at hc2; exact absurd hc2 (by simp)
      · -- token cached
        by_cases hb : env.senderSessionBeginOk
        · by_cases ha : env.senderAttachOk
          · refine ⟨?_, ?_, Or.inr ⟨⟨c.nextId, c.nextId + 1⟩, ?_, ?_⟩⟩
            · intro op hop
              simp [ensure_sender, hl, hec, hconn, heq2, hb, ha, ainsert,
                alookup_cons_self] at hop
              rcases hop with rfl | rfl | rfl <;> simp [NetOp.isSend]
            · intro hn; rw [hconn] at hn; exact absurd hn (by simp)
            · simp [ensure_sender, hl, hec, hconn, heq2, hb, ha, ainsert, alookup_cons_self]
            · simp [ensure_sender, hl, hec, hconn, heq2, hb, ha, ainsert, alookup_cons_self]
          · refine ⟨?_, ?_, Or.inl ⟨⟨.transportError "sender attach", ?_, by simp⟩, ?_, Or.inl ?_⟩⟩
            · intro op hop
              simp [ensure_sender, hl, hec, hconn, heq2, hb, ha] at hop
              rcases hop with rfl | rfl | rfl <;> simp [NetOp.isSend]
            · intro hn; rw [hconn] at hn; exact absurd hn (by simp)
            · simp [ensure_sender, hl, hec, hconn, heq2, hb, ha]
            · simp [ensure_sender, hl, hec, hconn, heq2, hb, ha]
            · simp [ensure_sender, hl, hec, hconn, heq2, hb, ha]
        · refine ⟨?_, ?_, Or.inl ⟨⟨.transportError "session begin", ?_, by simp⟩, ?_, Or.inl ?_⟩⟩
          · intro op hop
            simp [ensure_sender, hl, hec, hconn, heq2, hb] at hop
            rcases hop with rfl | rfl <;> simp [NetOp.isSend]
          · intro hn; rw [hconn] at hn; exact absurd hn (by simp)
          · simp [ensure_sender, hl, hec, hconn, heq2, hb]
          · simp [ensure_sender, hl, hec, hconn, heq2, hb]
          · simp [ensure_sender, hl, hec, hconn, heq2, hb]
      · -- authorization failed
        refine ⟨?_, ?_, Or.inl ⟨⟨e, ?_, hm⟩, ?_, Or.inl ?_⟩⟩
        · intro op hop
          simp [ensure_sender, hl, hec, hconn, heq2] at hop
          rcases hop with rfl | hop
          · simp [NetOp.isSend]
          · exact ⟨(hops op hop).2, netop_ne_lockSender_of_network (hops op hop).1⟩
        · intro hn; rw [hconn] at hn; exact absurd hn (by simp)
        · simp [ensure_sender, hl, hec, hconn, heq2]
        · simp [ensure_sender, hl, hec, hconn, heq2]
        · simp [ensure_sender, hl, hec, hconn, heq2]
      · -- fresh authorization succeeded
        by_cases hb : env.senderSessionBeginOk
        · by_cases ha : env.senderAttachOk
          · refine ⟨?_, ?_, Or.inr ⟨⟨c.nextId, c.nextId + 1⟩, ?_, ?_⟩⟩
            · intro op hop
              simp [ensure_sender, hl, hec, hconn, heq2, hb, ha, ainsert,
                alookup_cons_self] at hop
              rcases hop with rfl | rfl | rfl | rfl | rfl | rfl | rfl <;> simp [NetOp.isSend]
            · intro hn; rw [hconn] at hn; exact absurd hn (by simp)
            · simp [ensure_sender, hl, hec, hconn, heq2, hb, ha, ainsert, alookup_cons_self]
            · simp [ensure_sender, hl, hec, hconn, heq2, hb, ha, ainsert, alookup_cons_self]
          · refine ⟨?_, ?_, Or.inl ⟨⟨.transportError "sender attach", ?_, by simp⟩, ?_,
              Or.inr ⟨tok, ?_, ?_⟩⟩⟩
            · intro op hop
              simp [ensure_sender, hl, hec, hconn, heq2, hb, ha] at hop
              rcases hop with rfl | rfl | rfl | rfl | rfl | rfl | rfl <;> simp [NetOp.isSend]
            · intro hn; rw [hconn] at hn; exact absurd hn (by simp)
            · simp [ensure_sender, hl, hec, hconn, heq2, hb, ha]
            · simp [ensure_sender, hl, hec, hconn, heq2, hb, ha]
            · simp [ensure_sender, hl, hec, hconn, heq2, hb, ha, alookup_cons_self]
            · simp [ensure_sender, hl, hec, hconn, heq2, hb, ha]
        · refine ⟨?_, ?_, Or.inl ⟨⟨.transportError "session begin", ?_, by simp⟩, ?_,
            Or.inr ⟨tok, ?_, ?_⟩⟩⟩
          · intro op hop
            simp [ensure_sender, hl, hec, hconn, heq2, hb] at hop
            rcases hop with rfl | rfl | rfl | rfl | rfl | rfl <;> simp [NetOp.isSend]
          · intro hn; rw [hconn] at hn; exact absurd hn (by simp)
          · simp [ensure_sender, hl, hec, hconn, heq2, hb]
          · simp [ensure_sender, hl, hec, hconn, heq2, hb]
          · simp [ensure_sender, hl, hec, hconn, heq2, hb, alookup_cons_self]
          · simp [ensure_sender, hl, hec, hconn, heq2, hb]
    · -- no connection, URL parse failure
      refine ⟨?_, ?_, Or.inl ⟨⟨.urlParseError, ?_, by simp⟩, ?_, Or.inl ?_⟩⟩
      · intro op hop
        simp [ensure_sender, hl, hec] at hop
        subst hop; simp [NetOp.isSend]
      · intro _ hpt; rw [hpt] at hp; exact absurd hp (by simp)
      · simp [ensure_sender, hl, hec]
      · simp [ensure_sender, hl, hec]
      · simp [ensure_sender, hl, hec]
    · -- no connection, open succeeded: continue on the updated client c1
      rcases authorize_path_spec env
          { c with connection := some c.nextId, nextId := c.nextId + 1 } path with
        ⟨hc2, heq2⟩ | ⟨tok, _, hlk, heq2⟩ | ⟨e, tr2, _, hlk, hm, hu, hops, hcbs, heq2⟩ |
        ⟨tok, _, hlk, htok, heq2⟩
      · exact absurd hc2 (by simp)
      · by_cases hb : env.senderSessionBeginOk
        · by_cases ha : env.senderAttachOk
          · refine ⟨?_, ?_, Or.inr ⟨⟨c.nextId + 1, c.nextId + 2⟩, ?_, ?_⟩⟩
            · intro op hop
              simp [ensure_sender, hl, hec, heq2, hb, ha, ainsert, alookup_cons_self] at hop
              rcases hop with rfl | rfl | rfl | rfl <;> simp [NetOp.isSend]
            · intro _ _
              simp [ensure_sender, hl, hec, heq2, hb, ha, ainsert, alookup_cons_self]
            · simp [ensure_sender, hl, hec, heq2, hb, ha, ainsert, alookup_cons_self]
            · simp [ensure_sender, hl, hec, heq2, hb, ha, ainsert, alookup_cons_self]
          · refine ⟨?_, ?_, Or.inl ⟨⟨.transportError "sender attach", ?_, by simp⟩, ?_, Or.inl ?_⟩⟩
            · intro op hop
              simp [ensure_sender, hl, hec, heq2, hb, ha] at hop
              rcases hop with rfl | rfl | rfl | rfl <;> simp [NetOp.isSend]
            · intro _ _; simp [ensure_sender, hl, hec, heq2, hb, ha]
            · simp [ensure_sender, hl, hec, heq2, hb, ha]
            · simp [ensure_sender, hl, hec, heq2, hb, ha]
            · simp [ensure_sender, hl, hec, heq2, hb, ha]
        · refine ⟨?_, ?_, Or.inl ⟨⟨.transportError "session begin", ?_, by simp⟩, ?_, Or.inl ?_⟩⟩
          · intro op hop
            simp [ensure_sender, hl, hec, heq2, hb] at hop
            rcases hop with rfl | rfl | rfl <;> simp [NetOp.isSend]
          · intro _ _; simp [ensure_sender, hl, hec, heq2, hb]
          · simp [ensure_sender, hl, hec, heq2, hb]
          · simp [ensure_sender, hl, hec, heq2, hb]
          · simp [ensure_sender, hl, hec, heq2, hb]
      · refine ⟨?_, ?_, Or.inl ⟨⟨e, ?_, hm⟩, ?_, Or.inl ?_⟩⟩
        · intro op hop
          simp [ensure_sender, hl, hec, heq2] at hop
          rcases hop with rfl | rfl | hop
          · simp [NetOp.isSend]
          · simp [NetOp.isSend]
          · exact ⟨(hops op hop).2, netop_ne_lockSender_of_network (hops op hop).1⟩
        · intro _ _; simp [ensure_sender, hl, hec, heq2]
        · simp [ensure_sender, hl, hec, heq2]
        · simp [ensure_sender, hl, hec, heq2]
        · simp [ensure_sender, hl, hec, heq2]
      · by_cases hb : env.senderSessionBeginOk
        · by_cases ha : env.senderAttachOk
          · refine ⟨?_, ?_, Or.inr ⟨⟨c.nextId + 1, c.nextId + 2⟩, ?_, ?_⟩⟩
            · intro op hop
              simp [ensure_sender, hl, hec, heq2, hb, ha, ainsert, alookup_cons_self] at hop
              rcases hop with rfl | rfl | rfl | rfl | rfl | rfl | rfl | rfl <;>
                simp [NetOp.isSend]
            · intro _ _
              simp [ensure_sender, hl, hec, heq2, hb, ha, ainsert, alookup_cons_self]
            · simp [ensure_sender, hl, hec, heq2, hb, ha, ainsert, alookup_cons_self]
            · simp [ensure_sender, hl, hec, heq2, hb, ha, ainsert, alookup_cons_self]
          · refine ⟨?_, ?_, Or.inl ⟨⟨.transportError "sender attach", ?_, by simp⟩, ?_,
              Or.inr ⟨tok, ?_, ?_⟩⟩⟩
            · intro op hop
              simp [ensure_sender, hl, hec, heq2, hb, ha] at hop
              rcases hop with rfl | rfl | rfl | rfl | rfl | rfl | rfl | rfl <;>
                simp [NetOp.isSend]
            · intro _ _; simp [ensure_sender, hl, hec, heq2, hb, ha]
            · simp [ensure_sender, hl, hec, heq2, hb, ha]
            · simp [ensure_sender, hl, hec, heq2, hb, ha]
            · simp [ensure_sender, hl, hec, heq2, hb, ha, alookup_cons_self]
            · simp [ensure_sender, hl, hec, heq2, hb, ha]
        · refine ⟨?_, ?_, Or.inl ⟨⟨.transportError "session begin", ?_, by simp⟩, ?_,
            Or.inr ⟨tok, ?_, ?_⟩⟩⟩
          · intro op hop
            simp [ensure_sender, hl, hec, heq2, hb] at hop
            rcases hop with rfl | rfl | rfl | rfl | rfl | rfl | rfl <;> simp [NetOp.isSend]
          · intro _ _; simp [ensure_sender, hl, hec, heq2, hb]
          · simp [ensure_sender, hl, hec, heq2, hb]
          · simp [ensure_sender, hl, hec, heq2, hb]
          · simp [ensure_sender, hl, hec, heq2, hb, alookup_cons_self]
          · simp [ensure_sender, hl, hec, heq2, hb]
    · -- no connection, open failed
      refine ⟨?_, ?_, Or.inl ⟨⟨.transportError "connection open", ?_, by simp⟩, ?_, Or.inl ?_⟩⟩
      · intro op hop
        simp [ensure_sender, hl, hec] at hop
        rcases hop with rfl | rfl <;> simp [NetOp.isSend]
      · intro _ _; simp [ensure_sender, hl, hec]
      · simp [ensure_sender, hl, hec]
      · simp [ensure_sender, hl, hec]
      · simp [ensure_sender, hl, hec]

/-- `ensure_sender` never fails with the missing-connection error: on a
miss it opens the connection itself before anything else needs one. -/
theorem ensure_sender_ne_missing (env : Env) (c : ProducerClient) (path : String) :
    (ensure_sender env c path).1 ≠ .error .missingConnection := by
  rcases ensure_sender_spec env c path with ⟨inst, hl, heq⟩ | ⟨hl, hops, hcn, herr | hok⟩
  · rw [heq]; simp
  · obtain ⟨⟨e, he, hne⟩, -⟩ := herr
    rw [he]
    simp [hne]
  · obtain ⟨inst, he, -⟩ := hok
    rw [he]; simp

/-- `submit_batch` never fails with the missing-connection error. -/
theorem submit_batch_ne_missing (env : Env) (c : ProducerClient) (b : EventDataBatch) :
    (submit_batch env c b).1 ≠ .error .missingConnection := by
  have hns := ensure_sender_ne_missing env c b.get_batch_path
  unfold submit_batch
  rcases hes : ensure_sender env c b.get_batch_path with ⟨r, c1, tr1⟩
  rw [hes] at hns
  cases r with
  | error e => simpa using hns
  | ok handle =>
    by_cases hs : env.sendOk <;> simp [hs]

/-- Characterization of a successful `submit_batch`: the send succeeded,
`ensure_sender` succeeded with the same final state, and the trace is the
sender-resolution trace followed by locking that sender and sending the
batch's messages with the batch format. -/
theorem submit_batch_ok_char {env : Env} {c : ProducerClient} {b : EventDataBatch}
    {c' : ProducerClient} {tr : List NetOp}
    (h : submit_batch env c b = (.ok (), c', tr)) :
    env.sendOk = true ∧
    ∃ handle tr1, ensure_sender env c b.get_batch_path = (.ok handle, c', tr1) ∧
      tr = tr1 ++ [NetOp.lockSender handle,
                   .send b.get_messages (some BATCH_MESSAGE_FORMAT)] := by
  unfold submit_batch at h
  rcases hes : ensure_sender env c b.get_batch_path with ⟨r, c1, tr1⟩
  rw [hes] at h
  cases r with
  | error e => simp at h
  | ok handle =>
    by_cases hs : env.sendOk
    · simp only [hs, if_true, Prod.mk.injEq] at h
      obtain ⟨-, hc, htr⟩ := h
      subst hc
      exact ⟨hs, handle, tr1, rfl, htr.symm⟩
    · simp [hs] at h

/-- A successful `submit_batch` leaves the batch's path bound in the
sender pool, to the handle the send used. -/
theorem submit_batch_ok_pool {env : Env} {c : ProducerClient} {b : EventDataBatch}
    {c' : ProducerClient} {tr : List NetOp}
    (h : submit_batch env c b = (.ok (), c', tr)) :
    ∃ inst, alookup b.get_batch_path c'.senderInstances = some inst := by
  obtain ⟨-, handle, tr1, hes, -⟩ := submit_batch_ok_char h
  rcases ensure_sender_spec env c b.get_batch_path with
    ⟨inst, hl, heq⟩ | ⟨hl, -, -, herr | hok⟩
  · rw [heq] at hes
    simp only [Prod.mk.injEq] at hes
    obtain ⟨-, hc1, -⟩ := hes
    exact ⟨inst, hc1 ▸ hl⟩
  · obtain ⟨⟨e, he, -⟩, -⟩ := herr
    rw [hes] at he; simp at he
  · obtain ⟨inst, he, hlk⟩ := hok
    rw [hes] at he hlk
    exact ⟨inst, hlk⟩

/-- Every CBS put-token operation performed by `ensure_management_client`
is for the fixed management path `<base url>/$management`. -/
theorem ensure_management_cbs_path (env : Env) (c : ProducerClient) :
    ∀ p s x, NetOp.cbsAuthorizePath p s x ∈ (ensure_management_client env c).2.2 →
      p = c.url ++ "/$management" := by
  intro p s x hmem
  cases hmg : c.mgmtClient with
  | some m => simp [ensure_management_client, hmg] at hmem
  | none =>
    cases hcn : c.connection with
    | none => simp [ensure_management_client, hmg, hcn] at hmem
    | some k =>
      by_cases hsb : env.mgmtSessionBeginOk
      · rcases hap : authorize_path env c (c.url ++ "/$management") with ⟨r, c1, tr2⟩
        cases r with
        | error e =>
          simp [ensure_management_client, hmg, hcn, hsb, hap] at hmem
          exact (authorize_path_err_char hap).2.2.2.1 p s x hmem
        | ok tok =>
          by_cases hat : env.mgmtAttachOk <;>
          · simp [ensure_management_client, hmg, hcn, hsb, hap, hat] at hmem
            exact (authorize_path_ok_char hap).2.2.2.2.2.2.2.2.2.1 p s x hmem
      · simp [ensure_management_client, hmg, hcn, hsb] at hmem

/-! ## Concrete fixtures used by witnesses and counterexamples -/

/-- An environment in which every external operation succeeds. -/
def envAllOk : Env :=
  { urlParseOk := fun _ => true
    connectionOpenOk := true
    authSessionBeginOk := true
    cbsAttachOk := true
    getTokenResult := some ⟨"token-secret", 1000⟩
    cbsAuthorizeOk := true
    senderSessionBeginOk := true
    senderAttachOk := true
    sendOk := true
    mgmtSessionBeginOk := true
    mgmtAttachOk := true
    mgmtQueryOk := true }

/-- A freshly constructed client on which `open` was never called. -/
def clientFresh : ProducerClient := ProducerClient.new "ns" "eh" none

/-- A client that has been opened (connection present), with empty caches. -/
def clientOpened : ProducerClient := { clientFresh with connection := some 0, nextId := 1 }

/-- A batch addressed to the client's base path. -/
def batchX : EventDataBatch := ⟨"amqps://ns/eh", ["event-1"]⟩

/-- An environment in which the sender link attach fails but everything
before it succeeds. -/
def envAttachFail : Env := { envAllOk with senderAttachOk := false }

/-- An opened client whose pool already holds a sender for path `p1`. -/
def clientWithSender : ProducerClient :=
  { clientOpened with senderInstances := [("p1", ⟨1, 2⟩)], nextId := 3 }

/-- An environment in which token acquisition fails. -/
def envNoToken : Env := { envAllOk with getTokenResult := none }

/-- The opened client after a successful authorization of its base path. -/
def clientAuthed : ProducerClient :=
  { clientOpened with
    authorizationScopes := [("amqps://ns/eh", ⟨"token-secret", 1000⟩)] }

/-! ## Claim theorems -/

/-- Claim C8: if a connection already exists, `ensure_connection` is a
no-op for every `url` argument: no open occurs, the stored connection and
all other client state are unchanged (the returned client is the same
state), and the existing connection is reused even when `url` differs
from the one the connection was opened against. -/
theorem c8_ensure_connection_noop (env : Env) (c : ProducerClient) (url : String)
    (k : Nat) (h : c.connection = some k) :
    ensure_connection env c url = (.ok (), c, []) :=
  ensure_connection_of_some h url

/-- Witness for C8: a concrete opened client and a URL different from the
one it was opened against. -/
theorem c8_ensure_connection_noop_witness :
    clientOpened.connection = some 0 ∧
    ensure_connection envAllOk clientOpened "amqps://other-ns/other-hub" =
      (.ok (), clientOpened, []) :=
  ⟨rfl, c8_ensure_connection_noop envAllOk clientOpened "amqps://other-ns/other-hub" 0 rfl⟩

/-- Claim C6: after a successful `authorize_path(P)`, every subsequent
`authorize_path(P)` returns the cached token with an empty trace (no CBS
handshake, no `get_token`), and at most one cache entry exists for `P`
(exactly one, and the key set stays duplicate-free). -/
theorem c6_authorize_idempotent (env env' : Env) (c : ProducerClient) (P : String)
    (tok : AccessToken) (c' : ProducerClient) (tr : List NetOp)
    (hwf : (c.authorizationScopes.map Prod.fst).Nodup)
    (h : authorize_path env c P = (.ok tok, c', tr)) :
    authorize_path env' c' P = (.ok tok, c', []) ∧
    keyCount P c'.authorizationScopes = 1 ∧
    (c'.authorizationScopes.map Prod.fst).Nodup := by
  obtain ⟨hsome, hconn', -, -, -, -, -, hlk, -, -, hcases⟩ := authorize_path_ok_char h
  have hconn'some : c'.connection.isSome := by rw [hconn']; exact hsome
  refine ⟨?_, ?_, ?_⟩
  · obtain ⟨k, hk⟩ := Option.isSome_iff_exists.mp hconn'some
    simp [authorize_path, hk, hlk]
  · rcases hcases with ⟨rfl, -⟩ | ⟨hnone, hshape, -⟩
    · exact le_antisymm (keyCount_le_one_of_nodup _ _ hwf) (keyCount_pos_of_alookup _ _ _ hlk)
    · rw [hshape]
      simpa [ainsert] using keyCount_ainsert_self P tok c.authorizationScopes
  · rcases hcases with ⟨rfl, -⟩ | ⟨-, hshape, -⟩
    · exact hwf
    · rw [hshape]
      simpa [ainsert] using nodup_keys_ainsert P tok c.authorizationScopes hwf

/-- Witness for C6: a concrete first authorization followed by a second
one that returns the cached token with an empty trace. -/
theorem c6_authorize_idempotent_witness :
    (clientOpened.authorizationScopes.map Prod.fst).Nodup ∧
    authorize_path envAllOk clientOpened "amqps://ns/eh" =
      (.ok ⟨"token-secret", 1000⟩, clientAuthed,
       [NetOp.sessionBegin, .cbsAttach, .getToken eventhubsTokenScopes,
        .cbsAuthorizePath "amqps://ns/eh" "token-secret" 1000]) ∧
    (authorize_path envAllOk clientAuthed "amqps://ns/eh" =
        (.ok ⟨"token-secret", 1000⟩, clientAuthed, []) ∧
     keyCount "amqps://ns/eh" clientAuthed.authorizationScopes = 1 ∧
     (clientAuthed.authorizationScopes.map Prod.fst).Nodup) :=
  ⟨by decide, by decide,
   c6_authorize_idempotent envAllOk envAllOk clientOpened "amqps://ns/eh"
     ⟨"token-secret", 1000⟩ clientAuthed
     [NetOp.sessionBegin, .cbsAttach, .getToken eventhubsTokenScopes,
      .cbsAuthorizePath "amqps://ns/eh" "token-secret" 1000]
     (by decide) (by decide)⟩

/-- Claim C7: a pool hit makes `ensure_sender` return the existing shared
handle with the client state unchanged and a trace holding no network
operation at all (no open, no authorization, no session begin, no
attach); consequently a second `submit_batch` to the same path reuses the
pooled link and performs only the sender lock and the send. -/
theorem c7_sender_reuse :
    (∀ env (c : ProducerClient) path inst,
      alookup path c.senderInstances = some inst →
      ensure_sender env c path = (.ok inst.sender, c, [NetOp.lockPool]) ∧
      ∀ op ∈ (ensure_sender env c path).2.2, op.isNetworkOp = false)
  ∧ (∀ env (c : ProducerClient) b c' tr, submit_batch env c b = (.ok (), c', tr) →
      ∀ env', ∃ inst, alookup b.get_batch_path c'.senderInstances = some inst ∧
        submit_batch env' c' b =
          ((if env'.sendOk then .ok () else .error (.transportError "send")), c',
           [NetOp.lockPool, .lockSender inst.sender,
            .send b.get_messages (some BATCH_MESSAGE_FORMAT)])) := by
  constructor
  · intro env c path inst h
    have heq : ensure_sender env c path = (.ok inst.sender, c, [NetOp.lockPool]) := by
      simp [ensure_sender, h]
    refine ⟨heq, ?_⟩
    rw [heq]
    intro op hop
    simp at hop
    subst hop
    simp [NetOp.isNetworkOp]
  · intro env c b c' tr h env'
    obtain ⟨inst, hlk⟩ := submit_batch_ok_pool h
    refine ⟨inst, hlk, ?_⟩
    have hes : ensure_sender env' c' b.get_batch_path =
        (.ok inst.sender, c', [NetOp.lockPool]) := by
      simp [ensure_sender, hlk]
    by_cases hs : env'.sendOk <;> simp [submit_batch, hes, hs]

/-- Witness for C7: a concrete pool hit and a concrete second submit after
a successful first one. -/
theorem c7_sender_reuse_witness :
    (alookup "p1" clientWithSender.senderInstances = some ⟨1, 2⟩ ∧
     ensure_sender envAllOk clientWithSender "p1" =
       (.ok 2, clientWithSender, [NetOp.lockPool])) ∧
    (submit_batch envAllOk clientFresh batchX =
       (.ok (), (submit_batch envAllOk clientFresh batchX).2.1,
        (submit_batch envAllOk clientFresh batchX).2.2) ∧
     ∃ inst, alookup batchX.get_batch_path
         ((submit_batch envAllOk clientFresh batchX).2.1).senderInstances = some inst ∧
       submit_batch envAllOk ((submit_batch envAllOk clientFresh batchX).2.1) batchX =
         (.ok (), (submit_batch envAllOk clientFresh batchX).2.1,
          [NetOp.lockPool, .lockSender inst.sender,
           .send batchX.get_messages (some BATCH_MESSAGE_FORMAT)])) := by
  have hsub : submit_batch envAllOk clientFresh batchX =
      (.ok (), (submit_batch envAllOk clientFresh batchX).2.1,
       (submit_batch envAllOk clientFresh batchX).2.2) := by decide
  refine ⟨⟨rfl, (c7_sender_reuse.1 envAllOk clientWithSender "p1" ⟨1, 2⟩ rfl).1⟩, hsub, ?_⟩
  have h := c7_sender_reuse.2 envAllOk clientFresh batchX
    ((submit_batch envAllOk clientFresh batchX).2.1)
    ((submit_batch envAllOk clientFresh batchX).2.2) hsub envAllOk
  simpa [envAllOk] using h

/-- Claim C9: every successful `submit_batch` transmits exactly the
batch's message sequence, once, with the message format set to the fixed
batch envelope identifier `0x80013700`. -/
theorem c9_batch_format {env : Env} {c : ProducerClient} {b : EventDataBatch}
    {c' : ProducerClient} {tr : List NetOp}
    (h : submit_batch env c b = (.ok (), c', tr)) :
    tr.filter NetOp.isSend = [NetOp.send b.get_messages (some 0x80013700)] ∧
    BATCH_MESSAGE_FORMAT = 0x80013700 := by
  obtain ⟨hs, handle, tr1, hes, htr⟩ := submit_batch_ok_char h
  have hnos : ∀ op ∈ tr1, op.isSend = false := by
    rcases ensure_sender_spec env c b.get_batch_path with ⟨inst, hl, heq⟩ | ⟨hl, hops, -, -⟩
    · rw [heq] at hes
      simp only [Prod.mk.injEq] at hes
      obtain ⟨-, -, htr1⟩ := hes
      rw [← htr1]
      intro op hop
      simp at hop
      subst hop
      simp [NetOp.isSend]
    · rw [hes] at hops
      intro op hop
      exact (hops op hop).1
  constructor
  · rw [htr, List.filter_append]
    have hnil : tr1.filter NetOp.isSend = [] :=
      List.filter_eq_nil_iff.mpr (fun op hop => by simp [hnos op hop])
    rw [hnil]
    simp [NetOp.isSend, BATCH_MESSAGE_FORMAT]
  · rfl

/-- Witness for C9: a concrete successful submit whose trace filters to
exactly one send with the batch format. -/
theorem c9_batch_format_witness :
    ((submit_batch envAllOk clientFresh batchX).2.2).filter NetOp.isSend =
      [NetOp.send batchX.get_messages (some 0x80013700)] := by
  have hsub : submit_batch envAllOk clientFresh batchX =
      (.ok (), (submit_batch envAllOk clientFresh batchX).2.1,
       (submit_batch envAllOk clientFresh batchX).2.2) := by decide
  exact (c9_batch_format hsub).1

/-- Counterexample to Claim C1 as stated: on a freshly created (never
opened) client, with every transport operation succeeding, `submit_batch`
succeeds — it does not fail with the missing-connection error — and its
trace contains a connection open, i.e. a network operation was
performed. -/
theorem c1_counterexample :
    (submit_batch envAllOk clientFresh batchX).1 = .ok () ∧
    NetOp.connectionOpen none "amqps://ns/eh" ∈
      (submit_batch envAllOk clientFresh batchX).2.2 := by
  constructor <;> decide

/-- Claim C1 (amended): `submit_batch` on a client that was never opened
does not fail with the missing-connection error; instead `ensure_sender`
opens the connection itself, using the batch's path as the open URL, so a
transport open is performed (whenever the path parses as a URL). -/
theorem c1_unopened_submit_opens_connection :
    (∀ env (c : ProducerClient) b,
      (submit_batch env c b).1 ≠ .error .missingConnection)
  ∧ (∀ env (c : ProducerClient) b, c.connection = none →
      alookup b.get_batch_path c.senderInstances = none →
      env.urlParseOk b.get_batch_path = true →
      NetOp.connectionOpen c.options.applicationId b.get_batch_path ∈
        (submit_batch env c b).2.2) := by
  constructor
  · exact submit_batch_ne_missing
  · intro env c b hcn hl hp
    have hmem : NetOp.connectionOpen c.options.applicationId b.get_batch_path ∈
        (ensure_sender env c b.get_batch_path).2.2 := by
      rcases ensure_sender_spec env c b.get_batch_path with ⟨inst, hl', heq⟩ | ⟨-, -, hcm, -⟩
      · rw [hl] at hl'; cases hl'
      · exact hcm hcn hp
    unfold submit_batch
    rcases hes : ensure_sender env c b.get_batch_path with ⟨r, c1, tr1⟩
    rw [hes] at hmem
    cases r with
    | error e => simpa using hmem
    | ok handle =>
      by_cases hs : env.sendOk <;> simp [hs, List.mem_append] <;> exact hmem

/-- Witness for the amended C1 at a concrete never-opened client. -/
theorem c1_unopened_submit_opens_connection_witness :
    clientFresh.connection = none ∧
    alookup batchX.get_batch_path clientFresh.senderInstances = none ∧
    envAllOk.urlParseOk batchX.get_batch_path = true ∧
    NetOp.connectionOpen clientFresh.options.applicationId batchX.get_batch_path ∈
      (submit_batch envAllOk clientFresh batchX).2.2 :=
  ⟨rfl, rfl, rfl,
   c1_unopened_submit_opens_connection.2 envAllOk clientFresh batchX rfl rfl rfl⟩

/-- Counterexample to Claim C5 as stated: with the link attach failing
but authorization succeeding, `ensure_sender` fails, yet the token cache
has gained an entry for the failed path (it was empty before), so the
token cache is not left unchanged for that path. -/
theorem c5_counterexample :
    (ensure_sender envAttachFail clientOpened "amqps://ns/eh").1 =
      .error (.transportError "sender attach") ∧
    alookup "amqps://ns/eh" clientOpened.authorizationScopes = none ∧
    alookup "amqps://ns/eh"
        ((ensure_sender envAttachFail clientOpened "amqps://ns/eh").2.1).authorizationScopes =
      some ⟨"token-secret", 1000⟩ := by
  refine ⟨?_, ?_, ?_⟩ <;> decide

/-- Claim C5 (amended): a failed `authorize_path` leaves the client
completely unchanged (nothing partial is cached), and a failed
`ensure_sender` leaves the sender pool unchanged; the token cache at the
path is either unchanged or holds a token whose CBS handshake completed
(visible in the trace) — only fully-established entries are ever
cached. -/
theorem c5_failure_atomicity :
    (∀ env (c : ProducerClient) url e c' tr,
      authorize_path env c url = (.error e, c', tr) → c' = c)
  ∧ (∀ env (c : ProducerClient) path e, (ensure_sender env c path).1 = .error e →
      ((ensure_sender env c path).2.1).senderInstances = c.senderInstances ∧
      (alookup path ((ensure_sender env c path).2.1).authorizationScopes
          = alookup path c.authorizationScopes ∨
        ∃ tok, alookup path ((ensure_sender env c path).2.1).authorizationScopes = some tok ∧
          NetOp.cbsAuthorizePath path tok.secret tok.expiresOn ∈
            (ensure_sender env c path).2.2)) := by
  constructor
  · intro env c url e c' tr h
    exact (authorize_path_err_char h).1
  · intro env c path e h
    rcases ensure_sender_spec env c path with ⟨inst, hl, heq⟩ | ⟨hl, -, -, herr | hok⟩
    · rw [heq] at h; simp at h
    · obtain ⟨-, hpool, hsc⟩ := herr
      exact ⟨hpool, hsc⟩
    · obtain ⟨inst, he, -⟩ := hok
      rw [he] at h; simp at h

/-- Witness for the amended C5 at a concrete failing attach and a
concrete failing token acquisition. -/
theorem c5_failure_atomicity_witness :
    (authorize_path envNoToken clientOpened "amqps://ns/eh" =
      (.error .tokenAcquisitionError,
       (authorize_path envNoToken clientOpened "amqps://ns/eh").2.1,
       (authorize_path envNoToken clientOpened "amqps://ns/eh").2.2) ∧
     (authorize_path envNoToken clientOpened "amqps://ns/eh").2.1 = clientOpened) ∧
    ((ensure_sender envAttachFail clientOpened "amqps://ns/eh").1 =
      .error (.transportError "sender attach") ∧
     ((ensure_sender envAttachFail clientOpened "amqps://ns/eh").2.1).senderInstances =
       clientOpened.senderInstances) := by
  have hauth : authorize_path envNoToken clientOpened "amqps://ns/eh" =
      (.error .tokenAcquisitionError,
       (authorize_path envNoToken clientOpened "amqps://ns/eh").2.1,
       (authorize_path envNoToken clientOpened "amqps://ns/eh").2.2) := by decide
  have hsend : (ensure_sender envAttachFail clientOpened "amqps://ns/eh").1 =
      .error (.transportError "sender attach") := by decide
  exact ⟨⟨hauth, c5_failure_atomicity.1 envNoToken clientOpened "amqps://ns/eh"
      .tokenAcquisitionError _ _ hauth⟩,
    hsend, (c5_failure_atomicity.2 envAttachFail clientOpened "amqps://ns/eh"
      (.transportError "sender attach") hsend).1⟩

/-- The trace of `get_eventhub_properties` is the ensure-step trace,
followed by the management query when the ensure step succeeded. -/
theorem get_eventhub_properties_trace (env : Env) (c : ProducerClient) :
    (get_eventhub_properties env c).2.2 = (ensure_management_client env c).2.2 ∨
    (get_eventhub_properties env c).2.2 =
      (ensure_management_client env c).2.2 ++
        [NetOp.managementQuery ((ensure_management_client env c).2.1).eventhub none] := by
  unfold get_eventhub_properties
  rcases hem : ensure_management_client env c with ⟨r, c1, tr⟩
  cases r with
  | error e => left; rfl
  | ok u =>
    cases hmgc : c1.mgmtClient with
    | none => left; simp [hmgc]
    | some m =>
      right
      by_cases hq : env.mgmtQueryOk <;> simp [hmgc, hq]

/-- Claim C10: every property query first ensures the management link:
with no link and no connection it fails with the missing-connection
error; any CBS put-token it performs is for exactly `<base
url>/$management`; on the creation path the authorization precedes the
management attach (the full success trace is session begin, the CBS
handshake for the management path, then the management attach); and if
the management link already exists the ensure step is a no-op — only the
query runs and the state is unchanged. -/
theorem c10_property_queries (env : Env) (c : ProducerClient) (pid : String) :
    (c.mgmtClient = none → c.connection = none →
      get_eventhub_properties env c = (.error .missingConnection, c, []) ∧
      get_partition_properties env c pid = (.error .missingConnection, c, []))
  ∧ (∀ p s x, NetOp.cbsAuthorizePath p s x ∈ (get_eventhub_properties env c).2.2 →
      p = c.url ++ "/$management")
  ∧ (∀ k tok, c.mgmtClient = none → c.connection = some k →
      alookup (c.url ++ "/$management") c.authorizationScopes = none →
      env.mgmtSessionBeginOk = true → env.authSessionBeginOk = true →
      env.cbsAttachOk = true → env.getTokenResult = some tok →
      env.cbsAuthorizeOk = true → env.mgmtAttachOk = true →
      (ensure_management_client env c).1 = .ok () ∧
      (ensure_management_client env c).2.2 =
        [NetOp.sessionBegin, .sessionBegin, .cbsAttach, .getToken eventhubsTokenScopes,
         .cbsAuthorizePath (c.url ++ "/$management") tok.secret tok.expiresOn,
         .managementAttach])
  ∧ (∀ m, c.mgmtClient = some m →
      get_eventhub_properties env c =
        ((if env.mgmtQueryOk then .ok () else .error (.transportError "management query")),
         c, [NetOp.managementQuery c.eventhub none]) ∧
      get_partition_properties env c pid =
        ((if env.mgmtQueryOk then .ok () else .error (.transportError "management query")),
         c, [NetOp.managementQuery c.eventhub (some pid)])) := by
  refine ⟨?_, ?_, ?_, ?_⟩
  · intro hmg hcn
    have hens : ensure_management_client env c = (.error .missingConnection, c, []) := by
      simp [ensure_management_client, hmg, hcn]
    constructor
    · simp [get_eventhub_properties, hens]
    · simp [get_partition_properties, hens]
  · intro p s x hmem
    have hall := ensure_management_cbs_path env c
    rcases get_eventhub_properties_trace env c with htr | htr <;> rw [htr] at hmem
    · exact hall p s x hmem
    · rw [List.mem_append] at hmem
      rcases hmem with hmem | hmem
      · exact hall p s x hmem
      · simp at hmem
  · intro k tok hmg hcn hlk h1 h2 h3 h4 h5 h6
    constructor <;>
      simp [ensure_management_client, authorize_path, hmg, hcn, hlk, h1, h2, h3, h4, h5, h6,
        ainsert, alookup_cons_self]
  · intro m hmg
    have hens : ensure_management_client env c = (.ok (), c, []) := by
      simp [ensure_management_client, hmg]
    constructor
    · by_cases hq : env.mgmtQueryOk <;> simp [get_eventhub_properties, hens, hmg, hq]
    · by_cases hq : env.mgmtQueryOk <;> simp [get_partition_properties, hens, hmg, hq]

/-- An opened client whose management link already exists. -/
def clientMgmt : ProducerClient :=
  { clientOpened with mgmtClient := some ⟨3⟩, nextId := 4 }

/-- Witness for C10: the three behaviours at concrete clients — missing
connection, fresh management-link creation, and existing link. -/
theorem c10_property_queries_witness :
    (get_eventhub_properties envAllOk clientFresh =
       (.error .missingConnection, clientFresh, []) ∧
     get_partition_properties envAllOk clientFresh "0" =
       (.error .missingConnection, clientFresh, [])) ∧
    ((ensure_management_client envAllOk clientOpened).1 = .ok () ∧
     (ensure_management_client envAllOk clientOpened).2.2 =
       [NetOp.sessionBegin, .sessionBegin, .cbsAttach, .getToken eventhubsTokenScopes,
        .cbsAuthorizePath (clientOpened.url ++ "/$management") "token-secret" 1000,
        .managementAttach]) ∧
    get_eventhub_properties envAllOk clientMgmt =
      ((if envAllOk.mgmtQueryOk then .ok () else .error (.transportError "management query")),
       clientMgmt, [NetOp.managementQuery clientMgmt.eventhub none]) := by
  refine ⟨(c10_property_queries envAllOk clientFresh "0").1 rfl rfl, ?_, ?_⟩
  · exact (c10_property_queries envAllOk clientOpened "0").2.2.1 0
      ⟨"token-secret", 1000⟩ rfl rfl rfl rfl rfl rfl rfl rfl rfl
  · exact ((c10_property_queries envAllOk clientMgmt "0").2.2.2 ⟨3⟩ rfl).1

/-! ## Interleaving machine for `ensure_connection` (the `OnceLock` cell)

`ensure_connection` checks the cell (`self.connection.get().is_none()`),
then `await`s `AmqpConnection::open`, then calls `OnceLock::set`.  The
check-then-open and the open-then-set boundaries are suspension points,
so other tasks run in between.  `OnceLock::set` succeeds only for the
first writer; the loser's `map_err` turns the failure into the
missing-connection error. -/

/-- Program counter of one task running `ensure_connection`: before the
emptiness check; suspended inside `open` (the check found the cell
empty); holding a freshly opened connection and about to `set`; or done —
a successful call records the connection it observed. -/
inductive ConnPc where
  | start
  | opening
  | setPending (conn : Nat)
  | done (r : Except ErrorKind Nat)
deriving DecidableEq, Repr

/-- Shared state of the connection machine: the `OnceLock` cell, the
number of transport opens performed so far (doubling as the identity of
the next opened connection), and the task program counters. -/
structure ConnSys where
  conn : Option Nat
  openCount : Nat
  tasks : Nat → ConnPc

/-- One step of task `i` of the connection machine; `openOk n` is the
outcome of the `n`-th transport open. -/
inductive ConnStep (openOk : Nat → Bool) (i : Nat) : ConnSys → ConnSys → Prop where
  | observe (s : ConnSys) (k : Nat) :
      s.tasks i = .start → s.conn = some k →
      ConnStep openOk i s
        { s with tasks := fun j => if j = i then .done (.ok k) else s.tasks j }
  | beginOpen (s : ConnSys) :
      s.tasks i = .start → s.conn = none →
      ConnStep openOk i s
        { s with tasks := fun j => if j = i then .opening else s.tasks j }
  | openOkStep (s : ConnSys) :
      s.tasks i = .opening → openOk s.openCount = true →
      ConnStep openOk i s
        { s with openCount := s.openCount + 1,
                 tasks := fun j => if j = i then .setPending s.openCount else s.tasks j }
  | openFailStep (s : ConnSys) :
      s.tasks i = .opening → openOk s.openCount = false →
      ConnStep openOk i s
        { s with openCount := s.openCount + 1,
                 tasks := fun j => if j = i then
                     .done (.error (.transportError "connection open"))
                   else s.tasks j }
  | setOk (s : ConnSys) (k : Nat) :
      s.tasks i = .setPending k → s.conn = none →
      ConnStep openOk i s
        { s with conn := some k,
                 tasks := fun j => if j = i then .done (.ok k) else s.tasks j }
  | setFail (s : ConnSys) (k k' : Nat) :
      s.tasks i = .setPending k → s.conn = some k' →
      ConnStep openOk i s
        { s with tasks := fun j => if j = i then
              .done (.error .missingConnection)
            else s.tasks j }

/-- A step by any task. -/
def ConnStepAny (openOk : Nat → Bool) (s s' : ConnSys) : Prop :=
  ∃ i, ConnStep openOk i s s'

/-- Reachability in the connection machine. -/
def ConnReach (openOk : Nat → Bool) : ConnSys → ConnSys → Prop :=
  Relation.ReflTransGen (ConnStepAny openOk)

/-- Initial state: empty cell, no opens, every task at entry. -/
def connInit : ConnSys := ⟨none, 0, fun _ => .start⟩

/-- Environment in which every open succeeds. -/
def connRaceEnv : Nat → Bool := fun _ => true

/-- The racing execution, step by step: both tasks pass the emptiness
check before either sets the cell. -/
def connRaceS1 : ConnSys :=
  { connInit with tasks := fun j => if j = 0 then .opening else connInit.tasks j }

def connRaceS2 : ConnSys :=
  { connRaceS1 with tasks := fun j => if j = 1 then .opening else connRaceS1.tasks j }

def connRaceS3 : ConnSys :=
  { connRaceS2 with
    openCount := connRaceS2.openCount + 1
    tasks := fun j => if j = 0 then .setPending connRaceS2.openCount else connRaceS2.tasks j }

def connRaceS4 : ConnSys :=
  { connRaceS3 with
    openCount := connRaceS3.openCount + 1
    tasks := fun j => if j = 1 then .setPending connRaceS3.openCount else connRaceS3.tasks j }

def connRaceS5 : ConnSys :=
  { connRaceS4 with
    conn := some 0
    tasks := fun j => if j = 0 then .done (.ok 0) else connRaceS4.tasks j }

def connRaceS6 : ConnSys :=
  { connRaceS5 with tasks := fun j => if j = 1 then .done (.error .missingConnection)
      else connRaceS5.tasks j }

/-- The racing execution is a real execution of the machine. -/
theorem connRaceS6_reach : ConnReach connRaceEnv connInit connRaceS6 := by
  refine Relation.ReflTransGen.head ⟨0, ConnStep.beginOpen connInit rfl rfl⟩ ?_
  refine Relation.ReflTransGen.head ⟨1, ConnStep.beginOpen connRaceS1 rfl rfl⟩ ?_
  refine Relation.ReflTransGen.head ⟨0, ConnStep.openOkStep connRaceS2 rfl rfl⟩ ?_
  refine Relation.ReflTransGen.head ⟨1, ConnStep.openOkStep connRaceS3 rfl rfl⟩ ?_
  refine Relation.ReflTransGen.head ⟨0, ConnStep.setOk connRaceS4 0 rfl rfl⟩ ?_
  exact Relation.ReflTransGen.single ⟨1, ConnStep.setFail connRaceS5 1 0 rfl rfl⟩

/-- The cell is write-once: no step changes a stored connection. -/
theorem connStep_conn_mono {openOk : Nat → Bool} {i : Nat} {s s' : ConnSys} {k : Nat}
    (h : ConnStep openOk i s s') (hc : s.conn = some k) : s'.conn = some k := by
  cases h with
  | observe k' h1 h2 => exact hc
  | beginOpen h1 h2 => exact hc
  | openOkStep h1 h2 => exact hc
  | openFailStep h1 h2 => exact hc
  | setOk k0 h1 h2 => rw [h2] at hc; cases hc
  | setFail k0 k1 h1 h2 => exact hc

/-- One step preserves the invariant that every task that finished
successfully observed the currently stored connection. -/
theorem connStep_inv {openOk : Nat → Bool} {i : Nat} {s s' : ConnSys}
    (hstep : ConnStep openOk i s s')
    (hinv : ∀ j k, s.tasks j = .done (.ok k) → s.conn = some k) :
    ∀ j k, s'.tasks j = .done (.ok k) → s'.conn = some k := by
  intro j k hk
  cases hstep with
  | observe k' h1 h2 =>
    by_cases hji : j = i
    · subst hji
      simp at hk
      show s.conn = some k
      rw [h2, hk]
    · simp [hji] at hk
      exact hinv j k hk
  | beginOpen h1 h2 =>
    by_cases hji : j = i
    · subst hji; simp at hk
    · simp [hji] at hk
      exact hinv j k hk
  | openOkStep h1 h2 =>
    by_cases hji : j = i
    · subst hji; simp at hk
    · simp [hji] at hk
      exact hinv j k hk
  | openFailStep h1 h2 =>
    by_cases hji : j = i
    · subst hji; simp at hk
    · simp [hji] at hk
      exact hinv j k hk
  | setOk k0 h1 h2 =>
    by_cases hji : j = i
    · subst hji
      simp at hk
      show some k0 = some k
      rw [hk]
    · simp [hji] at hk
      have := hinv j k hk
      rw [h2] at this
      cases this
  | setFail k0 k1 h1 h2 =>
    by_cases hji : j = i
    · subst hji; simp at hk
    · simp [hji] at hk
      exact hinv j k hk

/-- In every reachable state, a task that finished successfully observed
the currently stored connection. -/
theorem connReach_ok_conn {openOk : Nat → Bool} {s : ConnSys}
    (h : ConnReach openOk connInit s) :
    ∀ i k, s.tasks i = .done (.ok k) → s.conn = some k := by
  induction h with
  | refl => intro i k hk; exact absurd hk (by simp [connInit])
  | tail hab hstep ih =>
    obtain ⟨j, hj⟩ := hstep
    exact connStep_inv hj ih

/-- Counterexample to Claim C2 as stated: an interleaving of two
concurrent `ensure_connection` calls in which both pass the emptiness
check before either stores.  Two transport opens occur (not exactly one),
and the two calls do not observe the same result: one succeeds while the
other fails with the missing-connection error from the losing
`OnceLock::set`. -/
theorem c2_counterexample :
    ConnReach connRaceEnv connInit connRaceS6 ∧
    connRaceS6.openCount = 2 ∧
    connRaceS6.tasks 0 = .done (.ok 0) ∧
    connRaceS6.tasks 1 = .done (.error .missingConnection) :=
  ⟨connRaceS6_reach, by decide, by decide, by decide⟩

/-- Claim C2 (amended): the connection cell is write-once — no step ever
changes a stored connection, so no caller observes a duplicate or
half-initialized stored connection — and every `ensure_connection` call
that succeeds observes the one stored connection, so all successful
concurrent calls agree on it.  (Concurrent calls may however each perform
a transport open, and a call whose `set` loses the race fails with the
missing-connection error, as the counterexample shows.) -/
theorem c2_amended :
    (∀ (openOk : Nat → Bool) (i : Nat) (s s' : ConnSys) (k : Nat),
      ConnStep openOk i s s' → s.conn = some k → s'.conn = some k)
  ∧ (∀ (openOk : Nat → Bool) (s : ConnSys), ConnReach openOk connInit s →
      ∀ i k, s.tasks i = .done (.ok k) → s.conn = some k)
  ∧ (∀ (openOk : Nat → Bool) (s : ConnSys), ConnReach openOk connInit s →
      ∀ i j k k', s.tasks i = .done (.ok k) → s.tasks j = .done (.ok k') → k = k') := by
  refine ⟨?_, ?_, ?_⟩
  · intro openOk i s s' k hstep hc
    exact connStep_conn_mono hstep hc
  · intro openOk s h
    exact connReach_ok_conn h
  · intro openOk s h i j k k' hi hj
    have h1 := connReach_ok_conn h i k hi
    have h2 := connReach_ok_conn h j k' hj
    rw [h1] at h2
    exact Option.some.inj h2

/-- Witness for the amended C2 at the concrete racing execution: the one
successful task observed exactly the stored connection. -/
theorem c2_amended_witness :
    connRaceS6.tasks 0 = .done (.ok 0) ∧ connRaceS6.conn = some 0 :=
  ⟨by decide, c2_amended.2.1 connRaceEnv connRaceS6 connRaceS6_reach 0 0 (by decide)⟩

/-! ## Interleaving machine for `ensure_sender` (the pool-wide mutex)

`ensure_sender` acquires the `sender_instances` mutex at entry and holds
it until the function returns — through `ensure_connection`,
`authorize_path`, `session.begin` and `sender.attach`, which are all
network suspension points.  Two tasks run `ensure_sender`, task `t` for
destination `pathOf t`.  The inner calls appear as one suspension step
each; their own fine structure is modelled by the other two machines. -/

/-- Program counter of one task running `ensure_sender`: wanting the pool
lock; holding it and suspended in `ensure_connection` / `authorize_path`
/ `session.begin` / `sender.attach`; or done. -/
inductive SPc where
  | wantLock
  | ensConn
  | authPath
  | beginSess
  | attachLink
  | done (r : Except ErrorKind Nat)
deriving DecidableEq, Repr

/-- A task is inside the creation region (holding the pool lock). -/
def SPc.isWorking : SPc → Bool
  | .ensConn => true
  | .authPath => true
  | .beginSess => true
  | .attachLink => true
  | _ => false

/-- Shared state of the sender machine: the pool mutex (its holder), the
path-to-handle pool, whether the connection exists, the set of authorized
paths, the next fresh handle, and the task program counters. -/
structure SenderSys where
  poolLock : Option (Fin 2)
  pool : List (String × Nat)
  conn : Bool
  scopes : List String
  handleCount : Nat
  tasks : Fin 2 → SPc

/-- Per-task outcomes of the external operations inside `ensure_sender`. -/
structure SenderEnv where
  openOk : Fin 2 → Bool
  authOk : Fin 2 → Bool
  beginOk : Fin 2 → Bool
  attachOk : Fin 2 → Bool

/-- One step of task `t` of the sender machine.  Acquiring the lock and
the synchronous pool check form one step (no suspension between them);
a cache hit releases the lock in the same synchronous region, so it
leaves the lock untouched. -/
inductive SenderStep (env : SenderEnv) (pathOf : Fin 2 → String) (t : Fin 2) :
    SenderSys → SenderSys → Prop where
  | acquireHit (s : SenderSys) (h : Nat) :
      s.tasks t = .wantLock → s.poolLock = none →
      alookup (pathOf t) s.pool = some h →
      SenderStep env pathOf t s
        { s with tasks := fun u => if u = t then .done (.ok h) else s.tasks u }
  | acquireMiss (s : SenderSys) :
      s.tasks t = .wantLock → s.poolLock = none →
      alookup (pathOf t) s.pool = none →
      SenderStep env pathOf t s
        { s with poolLock := some t
                 tasks := fun u => if u = t then .ensConn else s.tasks u }
  | ensConnNoop (s : SenderSys) :
      s.tasks t = .ensConn → s.conn = true →
      SenderStep env pathOf t s
        { s with tasks := fun u => if u = t then .authPath else s.tasks u }
  | ensConnOpen (s : SenderSys) :
      s.tasks t = .ensConn → s.conn = false → env.openOk t = true →
      SenderStep env pathOf t s
        { s with conn := true
                 tasks := fun u => if u = t then .authPath else s.tasks u }
  | ensConnFail (s : SenderSys) :
      s.tasks t = .ensConn → s.conn = false → env.openOk t = false →
      SenderStep env pathOf t s
        { s with poolLock := none
                 tasks := fun u => if u = t then
                     .done (.error (.transportError "connection open"))
                   else s.tasks u }
  | authCached (s : SenderSys) :
      s.tasks t = .authPath → pathOf t ∈ s.scopes →
      SenderStep env pathOf t s
        { s with tasks := fun u => if u = t then .beginSess else s.tasks u }
  | authFresh (s : SenderSys) :
      s.tasks t = .authPath → pathOf t ∉ s.scopes → env.authOk t = true →
      SenderStep env pathOf t s
        { s with scopes := pathOf t :: s.scopes
                 tasks := fun u => if u = t then .beginSess else s.tasks u }
  | authFail (s : SenderSys) :
      s.tasks t = .authPath → pathOf t ∉ s.scopes → env.authOk t = false →
      SenderStep env pathOf t s
        { s with poolLock := none
                 tasks := fun u => if u = t then
                     .done (.error (.transportError "authorization"))
                   else s.tasks u }
  | beginOkStep (s : SenderSys) :
      s.tasks t = .beginSess → env.beginOk t = true →
      SenderStep env pathOf t s
        { s with tasks := fun u => if u = t then .attachLink else s.tasks u }
  | beginFail (s : SenderSys) :
      s.tasks t = .beginSess → env.beginOk t = false →
      SenderStep env pathOf t s
        { s with poolLock := none
                 tasks := fun u => if u = t then
                     .done (.error (.transportError "session begin"))
                   else s.tasks u }
  | attachOkStep (s : SenderSys) :
      s.tasks t = .attachLink → env.attachOk t = true →
      SenderStep env pathOf t s
        { s with pool := (pathOf t, s.handleCount) :: s.pool
                 handleCount := s.handleCount + 1
                 poolLock := none
                 tasks := fun u => if u = t then .done (.ok s.handleCount) else s.tasks u }
  | attachFail (s : SenderSys) :
      s.tasks t = .attachLink → env.attachOk t = false →
      SenderStep env pathOf t s
        { s with poolLock := none
                 tasks := fun u => if u = t then
                     .done (.error (.transportError "sender attach"))
                   else s.tasks u }

/-- Reachability under any-task steps. -/
def SenderReach (env : SenderEnv) (pathOf : Fin 2 → String) :
    SenderSys → SenderSys → Prop :=
  Relation.ReflTransGen (fun s s' => ∃ t, SenderStep env pathOf t s s')

/-- Initial state: lock free, empty pool and caches, no connection. -/
def senderInit : SenderSys := ⟨none, [], false, [], 0, fun _ => .wantLock⟩

/-- Invariant: any task inside the creation region holds the pool lock
(so at most one task is ever inside it). -/
def SenderInv (s : SenderSys) : Prop :=
  ∀ u : Fin 2, (s.tasks u).isWorking = true → s.poolLock = some u

theorem senderInv_init : SenderInv senderInit := by
  intro u hu
  simp [senderInit, SPc.isWorking] at hu

theorem senderStep_inv {env : SenderEnv} {pathOf : Fin 2 → String} {t : Fin 2}
    {s s' : SenderSys} (hstep : SenderStep env pathOf t s s') (hinv : SenderInv s) :
    SenderInv s' := by
  intro u hu
  cases hstep with
  | acquireHit h h1 h2 h3 =>
    by_cases hut : u = t
    · subst hut; simp [SPc.isWorking] at hu
    · simp [hut] at hu
      exact hinv u hu
  | acquireMiss h1 h2 h3 =>
    by_cases hut : u = t
    · subst hut; rfl
    · simp [hut] at hu
      have := hinv u hu
      rw [h2] at this
      cases this
  | ensConnNoop h1 h2 =>
    by_cases hut : u = t
    · subst hut
      exact hinv u (by simp [h1, SPc.isWorking])
    · simp [hut] at hu
      exact hinv u hu
  | ensConnOpen h1 h2 h3 =>
    by_cases hut : u = t
    · subst hut
      exact hinv u (by simp [h1, SPc.isWorking])
    · simp [hut] at hu
      exact hinv u hu
  | ensConnFail h1 h2 h3 =>
    by_cases hut : u = t
    · subst hut; simp [SPc.isWorking] at hu
    · simp [hut] at hu
      have hvu := hinv u hu
      have hvt := hinv t (by simp [h1, SPc.isWorking])
      rw [hvt] at hvu
      exact absurd (Option.some.inj hvu) (Ne.symm hut)
  | authCached h1 h2 =>
    by_cases hut : u = t
    · subst hut
      exact hinv u (by simp [h1, SPc.isWorking])
    · simp [hut] at hu
      exact hinv u hu
  | authFresh h1 h2 h3 =>
    by_cases hut : u = t
    · subst hut
      exact hinv u (by simp [h1, SPc.isWorking])
    · simp [hut] at hu
      exact hinv u hu
  | authFail h1 h2 h3 =>
    by_cases hut : u = t
    · subst hut; simp [SPc.isWorking] at hu
    · simp [hut] at hu
      have hvu := hinv u hu
      have hvt := hinv t (by simp [h1, SPc.isWorking])
      rw [hvt] at hvu
      exact absurd (Option.some.inj hvu) (Ne.symm hut)
  | beginOkStep h1 h2 =>
    by_cases hut : u = t
    · subst hut
      exact hinv u (by simp [h1, SPc.isWorking])
    · simp [hut] at hu
      exact hinv u hu
  | beginFail h1 h2 =>
    by_cases hut : u = t
    · subst hut; simp [SPc.isWorking] at hu
    · simp [hut] at hu
      have hvu := hinv u hu
      have hvt := hinv t (by simp [h1, SPc.isWorking])
      rw [hvt] at hvu
      exact absurd (Option.some.inj hvu) (Ne.symm hut)
  | attachOkStep h1 h2 =>
    by_cases hut : u = t
    · subst hut; simp [SPc.isWorking] at hu
    · simp [hut] at hu
      have hvu := hinv u hu
      have hvt := hinv t (by simp [h1, SPc.isWorking])
      rw [hvt] at hvu
      exact absurd (Option.some.inj hvu) (Ne.symm hut)
  | attachFail h1 h2 =>
    by_cases hut : u = t
    · subst hut; simp [SPc.isWorking] at hu
    · simp [hut] at hu
      have hvu := hinv u hu
      have hvt := hinv t (by simp [h1, SPc.isWorking])
      rw [hvt] at hvu
      exact absurd (Option.some.inj hvu) (Ne.symm hut)

theorem senderReach_inv {env : SenderEnv} {pathOf : Fin 2 → String} {s : SenderSys}
    (h : SenderReach env pathOf senderInit s) : SenderInv s := by
  induction h with
  | refl => exact senderInv_init
  | tail hab hstep ih =>
    obtain ⟨t, ht⟩ := hstep
    exact senderStep_inv ht ih

/-- All external operations succeed. -/
def senderEnvTT : SenderEnv := ⟨fun _ => true, fun _ => true, fun _ => true, fun _ => true⟩

/-- Task 0 creates a sender for `P`, task 1 for the distinct path `Q`. -/
def pathPQ : Fin 2 → String := fun t => if t = 0 then "P" else "Q"

/-- The blocking execution: task 0 acquires the pool lock on a miss,
opens the connection, authorizes `P`, and is suspended in session begin —
still holding the pool lock. -/
def senderS1 : SenderSys :=
  { senderInit with
    poolLock := some 0
    tasks := fun u => if u = 0 then .ensConn else senderInit.tasks u }

def senderS2 : SenderSys :=
  { senderS1 with
    conn := true
    tasks := fun u => if u = 0 then .authPath else senderS1.tasks u }

def senderS3 : SenderSys :=
  { senderS2 with
    scopes := pathPQ 0 :: senderS2.scopes
    tasks := fun u => if u = 0 then .beginSess else senderS2.tasks u }

theorem senderS3_reach : SenderReach senderEnvTT pathPQ senderInit senderS3 := by
  refine Relation.ReflTransGen.head
    ⟨0, SenderStep.acquireMiss senderInit rfl rfl rfl⟩ ?_
  refine Relation.ReflTransGen.head
    ⟨0, SenderStep.ensConnOpen senderS1 rfl rfl rfl⟩ ?_
  exact Relation.ReflTransGen.single
    ⟨0, SenderStep.authFresh senderS2 rfl (by simp [senderS2, senderS1, senderInit]) rfl⟩

/-- While task 0 holds the pool lock (suspended in network work inside
its creation), task 1 — wanting a sender for the other path — cannot take
any step. -/
theorem senderS3_blocked : ¬ ∃ s', SenderStep senderEnvTT pathPQ 1 senderS3 s' := by
  rintro ⟨s', hstep⟩
  cases hstep <;> simp_all [senderS3, senderS2, senderS1, senderInit]

/-- Counterexample to Claim C3 as stated: a reachable state of the
sender-pool machine in which task 0, creating the sender for path `P`, is
suspended in session begin while holding the pool-wide mutex, and task 1
— which asks for the distinct path `Q` — can take no step at all.
Creation for `Q` is blocked during `P`'s entire creation, well beyond the
cache's own map access. -/
theorem c3_counterexample :
    SenderReach senderEnvTT pathPQ senderInit senderS3 ∧
    pathPQ 0 ≠ pathPQ 1 ∧
    senderS3.tasks 0 = .beginSess ∧
    senderS3.tasks 1 = .wantLock ∧
    ¬ ∃ s', SenderStep senderEnvTT pathPQ 1 senderS3 s' :=
  ⟨senderS3_reach, by decide, by decide, by decide, senderS3_blocked⟩

/-- Claim C3 (amended): the pool-wide mutex is held for the entire
creation, so while one task is creating a sender for its path, no other
task — whatever its path — can take any step of `ensure_sender`; once the
links exist, however, a send locks only the sender of its own path:
every sender-lock operation in a successful `submit_batch` trace is the
lock of the batch path's own pooled sender, so a send on one path never
takes another path's sender lock. -/
theorem c3_creation_serialized_sends_independent :
    (∀ (env : SenderEnv) (pathOf : Fin 2 → String) (s : SenderSys) (t u : Fin 2),
      SenderReach env pathOf senderInit s → s.poolLock = some t → u ≠ t →
      ¬ ∃ s', SenderStep env pathOf u s s')
  ∧ (∀ env (c : ProducerClient) b c' tr, submit_batch env c b = (.ok (), c', tr) →
      ∃ inst, alookup b.get_batch_path c'.senderInstances = some inst ∧
        ∀ hd, NetOp.lockSender hd ∈ tr → hd = inst.sender) := by
  constructor
  · intro env pathOf s t u hreach hlock hut
    rintro ⟨s', hstep⟩
    have hinv := senderReach_inv hreach
    cases hstep with
    | acquireHit h h1 h2 h3 => rw [hlock] at h2; cases h2
    | acquireMiss h1 h2 h3 => rw [hlock] at h2; cases h2
    | ensConnNoop h1 h2 =>
      have := hinv u (by simp [h1, SPc.isWorking])
      rw [hlock] at this
      exact hut (Option.some.inj this).symm
    | ensConnOpen h1 h2 h3 =>
      have := hinv u (by simp [h1, SPc.isWorking])
      rw [hlock] at this
      exact hut (Option.some.inj this).symm
    | ensConnFail h1 h2 h3 =>
      have := hinv u (by simp [h1, SPc.isWorking])
      rw [hlock] at this
      exact hut (Option.some.inj this).symm
    | authCached h1 h2 =>
      have := hinv u (by simp [h1, SPc.isWorking])
      rw [hlock] at this
      exact hut (Option.some.inj this).symm
    | authFresh h1 h2 h3 =>
      have := hinv u (by simp [h1, SPc.isWorking])
      rw [hlock] at this
      exact hut (Option.some.inj this).symm
    | authFail h1 h2 h3 =>
      have := hinv u (by simp [h1, SPc.isWorking])
      rw [hlock] at this
      exact hut (Option.some.inj this).symm
    | beginOkStep h1 h2 =>
      have := hinv u (by simp [h1, SPc.isWorking])
      rw [hlock] at this
      exact hut (Option.some.inj this).symm
    | beginFail h1 h2 =>
      have := hinv u (by simp [h1, SPc.isWorking])
      rw [hlock] at this
      exact hut (Option.some.inj this).symm
    | attachOkStep h1 h2 =>
      have := hinv u (by simp [h1, SPc.isWorking])
      rw [hlock] at this
      exact hut (Option.some.inj this).symm
    | attachFail h1 h2 =>
      have := hinv u (by simp [h1, SPc.isWorking])
      rw [hlock] at this
      exact hut (Option.some.inj this).symm
  · intro env c b c' tr h
    obtain ⟨-, handle, tr1, hes, htr⟩ := submit_batch_ok_char h
    have hinst : ∃ inst, alookup b.get_batch_path c'.senderInstances = some inst ∧
        handle = inst.sender := by
      rcases ensure_sender_spec env c b.get_batch_path with
        ⟨inst, hl, heq⟩ | ⟨hl, -, -, herr | hok⟩
      · rw [heq] at hes
        simp only [Prod.mk.injEq, Except.ok.injEq] at hes
        obtain ⟨hh, hc1, -⟩ := hes
        exact ⟨inst, hc1 ▸ hl, hh.symm⟩
      · obtain ⟨⟨e, he, -⟩, -⟩ := herr
        rw [hes] at he; simp at he
      · obtain ⟨inst, he, hlk⟩ := hok
        rw [hes] at he hlk
        simp only at he
        exact ⟨inst, hlk, (Except.ok.inj he.symm).symm⟩
    have hnolock : ∀ hd, NetOp.lockSender hd ∉ tr1 := by
      rcases ensure_sender_spec env c b.get_batch_path with
        ⟨inst, hl, heq⟩ | ⟨hl, hops, -, -⟩
      · rw [heq] at hes
        simp only [Prod.mk.injEq] at hes
        obtain ⟨-, -, htr1⟩ := hes
        rw [← htr1]
        intro hd hmem
        simp at hmem
      · rw [hes] at hops
        intro hd hmem
        exact (hops _ hmem).2 hd rfl
    obtain ⟨inst, hlk, hh⟩ := hinst
    refine ⟨inst, hlk, ?_⟩
    intro hd hmem
    rw [htr, List.mem_append] at hmem
    rcases hmem with hmem | hmem
    · exact absurd hmem (hnolock hd)
    · simp at hmem
      rw [hmem, hh]

/-- Witness for the amended C3: the concrete blocked state, and the
concrete successful submit whose only sender lock is its own pooled
sender's. -/
theorem c3_creation_serialized_witness :
    (¬ ∃ s', SenderStep senderEnvTT pathPQ 1 senderS3 s') ∧
    (∃ inst, alookup batchX.get_batch_path
        ((submit_batch envAllOk clientFresh batchX).2.1).senderInstances = some inst ∧
      ∀ hd, NetOp.lockSender hd ∈ (submit_batch envAllOk clientFresh batchX).2.2 →
        hd = inst.sender) := by
  constructor
  · exact c3_creation_serialized_sends_independent.1 senderEnvTT pathPQ senderS3 0 1
      senderS3_reach rfl (by decide)
  · have hsub : submit_batch envAllOk clientFresh batchX =
        (.ok (), (submit_batch envAllOk clientFresh batchX).2.1,
         (submit_batch envAllOk clientFresh batchX).2.2) := by decide
    exact c3_creation_serialized_sends_independent.2 envAllOk clientFresh batchX _ _ hsub

/-! ## Interleaving machine for `authorize_path` (the token-cache mutex)

`authorize_path` acquires the `authorization_scopes` mutex at entry and
holds it until it returns.  The connection check and the `contains_key`
check are synchronous after the acquisition; the session begin, CBS
attach, `get_token` and CBS put-token are suspension points; the insert,
the post-insert duplicate check and the final `get` are synchronous after
the put-token completes.  The machine has the insert-failure transition
exactly as written in the source; the theorem shows it can never fire. -/

/-- Program counter of one task running `authorize_path`. -/
inductive APc where
  | wantLock
  | sBegin
  | cbsAtt
  | getTok
  | cbsAuth (tok : AccessToken)
  | done (r : Except ErrorKind AccessToken)
deriving DecidableEq, Repr

/-- A task has finished. -/
def APc.isDone : APc → Bool
  | .done _ => true
  | _ => false

/-- A task is inside the creation region (between the presence check and
the insert), holding the token-cache lock. -/
def APc.isWorking : APc → Bool
  | .sBegin => true
  | .cbsAtt => true
  | .getTok => true
  | .cbsAuth _ => true
  | _ => false

/-- Shared state of the authorization machine: the token-cache mutex (its
holder), the token cache, and the task program counters.  The connection
cell is constant during the run (no task of this machine mutates it) and
is a parameter of the step relation. -/
structure AuthSys where
  lock : Option (Fin 2)
  scopes : List (String × AccessToken)
  tasks : Fin 2 → APc

/-- Per-task outcomes of the external operations inside `authorize_path`. -/
structure AuthEnv where
  sBeginOk : Fin 2 → Bool
  cbsAttOk : Fin 2 → Bool
  tokenOf : Fin 2 → Option AccessToken
  cbsAuthOk : Fin 2 → Bool

/-- One step of task `t` of the authorization machine. -/
inductive AuthStep (env : AuthEnv) (conn : Option Nat) (pathOf : Fin 2 → String)
    (t : Fin 2) : AuthSys → AuthSys → Prop where
  | acquireNoConn (s : AuthSys) :
      s.tasks t = .wantLock → s.lock = none → conn = none →
      AuthStep env conn pathOf t s
        { s with tasks := fun u => if u = t then
            .done (.error .missingConnection) else s.tasks u }
  | acquireCached (s : AuthSys) (k : Nat) (tok : AccessToken) :
      s.tasks t = .wantLock → s.lock = none → conn = some k →
      alookup (pathOf t) s.scopes = some tok →
      AuthStep env conn pathOf t s
        { s with tasks := fun u => if u = t then .done (.ok tok) else s.tasks u }
  | acquireFresh (s : AuthSys) (k : Nat) :
      s.tasks t = .wantLock → s.lock = none → conn = some k →
      alookup (pathOf t) s.scopes = none →
      AuthStep env conn pathOf t s
        { s with lock := some t
                 tasks := fun u => if u = t then .sBegin else s.tasks u }
  | sBeginOkStep (s : AuthSys) :
      s.tasks t = .sBegin → env.sBeginOk t = true →
      AuthStep env conn pathOf t s
        { s with tasks := fun u => if u = t then .cbsAtt else s.tasks u }
  | sBeginFail (s : AuthSys) :
      s.tasks t = .sBegin → env.sBeginOk t = false →
      AuthStep env conn pathOf t s
        { s with lock := none
                 tasks := fun u => if u = t then
                     .done (.error (.transportError "session begin"))
                   else s.tasks u }
  | cbsAttOkStep (s : AuthSys) :
      s.tasks t = .cbsAtt → env.cbsAttOk t = true →
      AuthStep env conn pathOf t s
        { s with tasks := fun u => if u = t then .getTok else s.tasks u }
  | cbsAttFail (s : AuthSys) :
      s.tasks t = .cbsAtt → env.cbsAttOk t = false →
      AuthStep env conn pathOf t s
        { s with lock := none
                 tasks := fun u => if u = t then
                     .done (.error (.transportError "cbs attach"))
                   else s.tasks u }
  | getTokOkStep (s : AuthSys) (tok : AccessToken) :
      s.tasks t = .getTok → env.tokenOf t = some tok →
      AuthStep env conn pathOf t s
        { s with tasks := fun u => if u = t then .cbsAuth tok else s.tasks u }
  | getTokFail (s : AuthSys) :
      s.tasks t = .getTok → env.tokenOf t = none →
      AuthStep env conn pathOf t s
        { s with lock := none
                 tasks := fun u => if u = t then
                     .done (.error .tokenAcquisitionError)
                   else s.tasks u }
  | cbsAuthFail (s : AuthSys) (tok : AccessToken) :
      s.tasks t = .cbsAuth tok → env.cbsAuthOk t = false →
      AuthStep env conn pathOf t s
        { s with lock := none
                 tasks := fun u => if u = t then
                     .done (.error (.transportError "cbs authorize"))
                   else s.tasks u }
  | insertFresh (s : AuthSys) (tok : AccessToken) :
      s.tasks t = .cbsAuth tok → env.cbsAuthOk t = true →
      alookup (pathOf t) s.scopes = none →
      AuthStep env conn pathOf t s
        { s with scopes := (ainsert (pathOf t) tok s.scopes).2
                 lock := none
                 tasks := fun u => if u = t then .done (.ok tok) else s.tasks u }
  | insertDup (s : AuthSys) (tok old : AccessToken) :
      s.tasks t = .cbsAuth tok → env.cbsAuthOk t = true →
      alookup (pathOf t) s.scopes = some old →
      AuthStep env conn pathOf t s
        { s with scopes := (ainsert (pathOf t) tok s.scopes).2
                 lock := none
                 tasks := fun u => if u = t then
                     .done (.error .unableToAddAuthenticationToken)
                   else s.tasks u }

/-- Reachability under any-task steps. -/
def AuthReach (env : AuthEnv) (conn : Option Nat) (pathOf : Fin 2 → String) :
    AuthSys → AuthSys → Prop :=
  Relation.ReflTransGen (fun s s' => ∃ t, AuthStep env conn pathOf t s s')

/-- Initial state: lock free, empty token cache, both tasks at entry. -/
def authInit : AuthSys := ⟨none, [], fun _ => .wantLock⟩

/-- The machine invariant: a task inside the creation region holds the
lock and its path is still absent from the cache (the lock is held from
the presence check through the insert, and only the holder mutates the
cache); the lock holder is always inside the creation region; and no
finished task ever carries the duplicate-insert error. -/
def AuthInv (pathOf : Fin 2 → String) (s : AuthSys) : Prop :=
  (∀ u : Fin 2, (s.tasks u).isWorking = true →
     s.lock = some u ∧ alookup (pathOf u) s.scopes = none)
  ∧ (∀ u : Fin 2, s.lock = some u → (s.tasks u).isWorking = true)
  ∧ (∀ (u : Fin 2) r, s.tasks u = .done r →
      r ≠ .error .unableToAddAuthenticationToken)

theorem authInv_init (pathOf : Fin 2 → String) : AuthInv pathOf authInit := by
  refine ⟨?_, ?_, ?_⟩
  · intro u hu; simp [authInit, APc.isWorking] at hu
  · intro u hu; simp [authInit] at hu
  · intro u r hu; simp [authInit] at hu

theorem authStep_inv {env : AuthEnv} {conn : Option Nat} {pathOf : Fin 2 → String}
    {t : Fin 2} {s s' : AuthSys} (hstep : AuthStep env conn pathOf t s s')
    (hinv : AuthInv pathOf s) : AuthInv pathOf s' := by
  obtain ⟨hi, hii, hiii⟩ := hinv
  cases hstep with
  | acquireNoConn h1 h2 h3 =>
    refine ⟨?_, ?_, ?_⟩
    · intro u hu
      by_cases hut : u = t
      · subst hut; simp [APc.isWorking] at hu
      · simp [hut] at hu
        have := (hi u hu).1
        rw [h2] at this
        cases this
    · intro u hu
      rw [h2] at hu
      cases hu
    · intro u r hu
      by_cases hut : u = t
      · subst hut
        simp at hu
        rw [← hu]
        simp
      · simp [hut] at hu
        exact hiii u r hu
  | acquireCached k tok h1 h2 h3 h4 =>
    refine ⟨?_, ?_, ?_⟩
    · intro u hu
      by_cases hut : u = t
      · subst hut; simp [APc.isWorking] at hu
      · simp [hut] at hu
        have := (hi u hu).1
        rw [h2] at this
        cases this
    · intro u hu
      rw [h2] at hu
      cases hu
    · intro u r hu
      by_cases hut : u = t
      · subst hut
        simp at hu
        rw [← hu]
        simp
      · simp [hut] at hu
        exact hiii u r hu
  | acquireFresh k h1 h2 h3 h4 =>
    refine ⟨?_, ?_, ?_⟩
    · intro u hu
      by_cases hut : u = t
      · subst hut
        exact ⟨rfl, h4⟩
      · simp [hut] at hu
        have := (hi u hu).1
        rw [h2] at this
        cases this
    · intro u hu
      simp only at hu
      have hut : t = u := Option.some.inj hu
      subst hut
      simp [APc.isWorking]
    · intro u r hu
      by_cases hut : u = t
      · subst hut; simp at hu
      · simp [hut] at hu
        exact hiii u r hu
  | sBeginOkStep h1 h2 =>
    refine ⟨?_, ?_, ?_⟩
    · intro u hu
      by_cases hut : u = t
      · subst hut
        exact hi u (by simp [h1, APc.isWorking])
      · simp [hut] at hu
        exact hi u hu
    · intro u hu
      by_cases hut : u = t
      · subst hut; simp [APc.isWorking]
      · have := hii u hu
        simpa [hut] using this  -- hmm
    · intro u r hu
      by_cases hut : u = t
      · subst hut; simp at hu
      · simp [hut] at hu
        exact hiii u r hu
  | sBeginFail h1 h2 =>
    refine ⟨?_, ?_, ?_⟩
    · intro u hu
      by_cases hut : u = t
      · subst hut; simp [APc.isWorking] at hu
      · simp [hut] at hu
        have hvu := (hi u hu).1
        have hvt := (hi t (by simp [h1, APc.isWorking])).1
        rw [hvt] at hvu
        exact absurd (Option.some.inj hvu) (Ne.symm hut)
    · intro u hu
      simp at hu
    · intro u r hu
      by_cases hut : u = t
      · subst hut
        simp at hu
        rw [← hu]
        simp
      · simp [hut] at hu
        exact hiii u r hu
  | cbsAttFail h1 h2 =>
    refine ⟨?_, ?_, ?_⟩
    · intro u hu
      by_cases hut : u = t
      · subst hut; simp [APc.isWorking] at hu
      · simp [hut] at hu
        have hvu := (hi u hu).1
        have hvt := (hi t (by simp [h1, APc.isWorking])).1
        rw [hvt] at hvu
        exact absurd (Option.some.inj hvu) (Ne.symm hut)
    · intro u hu
      simp at hu
    · intro u r hu
      by_cases hut : u = t
      · subst hut
        simp at hu
        rw [← hu]
        simp
      · simp [hut] at hu
        exact hiii u r hu
  | cbsAttOkStep h1 h2 =>
    refine ⟨?_, ?_, ?_⟩
    · intro u hu
      by_cases hut : u = t
      · subst hut
        exact hi u (by simp [h1, APc.isWorking])
      · simp [hut] at hu
        exact hi u hu
    · intro u hu
      by_cases hut : u = t
      · subst hut; simp [APc.isWorking]
      · have := hii u hu
        simpa [hut] using this
    · intro u r hu
      by_cases hut : u = t
      · subst hut; simp at hu
      · simp [hut] at hu
        exact hiii u r hu
  | getTokOkStep tok h1 h2 =>
    refine ⟨?_, ?_, ?_⟩
    · intro u hu
      by_cases hut : u = t
      · subst hut
        exact hi u (by simp [h1, APc.isWorking])
      · simp [hut] at hu
        exact hi u hu
    · intro u hu
      by_cases hut : u = t
      · subst hut; simp [APc.isWorking]
      · have := hii u hu
        simpa [hut] using this
    · intro u r hu
      by_cases hut : u = t
      · subst hut; simp at hu
      · simp [hut] at hu
        exact hiii u r hu
  | getTokFail h1 h2 =>
    refine ⟨?_, ?_, ?_⟩
    · intro u hu
      by_cases hut : u = t
      · subst hut; simp [APc.isWorking] at hu
      · simp [hut] at hu
        have hvu := (hi u hu).1
        have hvt := (hi t (by simp [h1, APc.isWorking])).1
        rw [hvt] at hvu
        exact absurd (Option.some.inj hvu) (Ne.symm hut)
    · intro u hu
      simp at hu
    · intro u r hu
      by_cases hut : u = t
      · subst hut
        simp at hu
        rw [← hu]
        simp
      · simp [hut] at hu
        exact hiii u r hu
  | cbsAuthFail tok h1 h2 =>
    refine ⟨?_, ?_, ?_⟩
    · intro u hu
      by_cases hut : u = t
      · subst hut; simp [APc.isWorking] at hu
      · simp [hut] at hu
        have hvu := (hi u hu).1
        have hvt := (hi t (by simp [h1, APc.isWorking])).1
        rw [hvt] at hvu
        exact absurd (Option.some.inj hvu) (Ne.symm hut)
    · intro u hu
      simp at hu
    · intro u r hu
      by_cases hut : u = t
      · subst hut
        simp at hu
        rw [← hu]
        simp
      · simp [hut] at hu
        exact hiii u r hu
  | insertFresh tok h1 h2 h3 =>
    refine ⟨?_, ?_, ?_⟩
    · intro u hu
      by_cases hut : u = t
      · subst hut; simp [APc.isWorking] at hu
      · simp [hut] at hu
        have hvu := (hi u hu).1
        have hvt := (hi t (by simp [h1, APc.isWorking])).1
        rw [hvt] at hvu
        exact absurd (Option.some.inj hvu) (Ne.symm hut)
    · intro u hu
      simp at hu
    · intro u r hu
      by_cases hut : u = t
      · subst hut
        simp at hu
        rw [← hu]
        simp
      · simp [hut] at hu
        exact hiii u r hu
  | insertDup tok old h1 h2 h3 =>
    have := (hi t (by simp [h1, APc.isWorking])).2
    rw [this] at h3
    cases h3

theorem authReach_inv {env : AuthEnv} {conn : Option Nat} {pathOf : Fin 2 → String}
    {s : AuthSys} (h : AuthReach env conn pathOf authInit s) : AuthInv pathOf s := by
  induction h with
  | refl => exact authInv_init pathOf
  | tail hab hstep ih =>
    obtain ⟨t, ht⟩ := hstep
    exact authStep_inv ht ih

/-- With a connection present and every external operation succeeding,
every finished task holds a token (no error result at all). -/
theorem authStep_ok_results {env : AuthEnv} {conn : Option Nat}
    {pathOf : Fin 2 → String} {t : Fin 2} {s s' : AuthSys} {k : Nat}
    (hconn : conn = some k)
    (hok : ∀ u, env.sBeginOk u = true ∧ env.cbsAttOk u = true ∧
      (env.tokenOf u).isSome = true ∧ env.cbsAuthOk u = true)
    (hstep : AuthStep env conn pathOf t s s')
    (hinv : AuthInv pathOf s)
    (hres : ∀ u r, s.tasks u = .done r → ∃ tok, r = .ok tok) :
    ∀ u r, s'.tasks u = .done r → ∃ tok, r = .ok tok := by
  intro u r hu
  cases hstep with
  | acquireNoConn h1 h2 h3 => rw [hconn] at h3; cases h3
  | acquireCached k' tok h1 h2 h3 h4 =>
    by_cases hut : u = t
    · subst hut; simp at hu; exact ⟨tok, hu.symm⟩
    · simp [hut] at hu; exact hres u r hu
  | acquireFresh k' h1 h2 h3 h4 =>
    by_cases hut : u = t
    · subst hut; simp at hu
    · simp [hut] at hu; exact hres u r hu
  | sBeginOkStep h1 h2 =>
    by_cases hut : u = t
    · subst hut; simp at hu
    · simp [hut] at hu; exact hres u r hu
  | sBeginFail h1 h2 => rw [(hok t).1] at h2; cases h2
  | cbsAttOkStep h1 h2 =>
    by_cases hut : u = t
    · subst hut; simp at hu
    · simp [hut] at hu; exact hres u r hu
  | cbsAttFail h1 h2 => rw [(hok t).2.1] at h2; cases h2
  | getTokOkStep tok h1 h2 =>
    by_cases hut : u = t
    · subst hut; simp at hu
    · simp [hut] at hu; exact hres u r hu
  | getTokFail h1 h2 =>
    have := (hok t).2.2.1
    rw [h2] at this
    simp at this
  | cbsAuthFail tok h1 h2 => rw [(hok t).2.2.2] at h2; cases h2
  | insertFresh tok h1 h2 h3 =>
    by_cases hut : u = t
    · subst hut; simp at hu; exact ⟨tok, hu.symm⟩
    · simp [hut] at hu; exact hres u r hu
  | insertDup tok old h1 h2 h3 =>
    have := (hinv.1 t (by simp [h1, APc.isWorking])).2
    rw [this] at h3
    cases h3

theorem authReach_ok_results {env : AuthEnv} {conn : Option Nat}
    {pathOf : Fin 2 → String} {s : AuthSys} {k : Nat}
    (hconn : conn = some k)
    (hok : ∀ u, env.sBeginOk u = true ∧ env.cbsAttOk u = true ∧
      (env.tokenOf u).isSome = true ∧ env.cbsAuthOk u = true)
    (h : AuthReach env conn pathOf authInit s) :
    ∀ u r, s.tasks u = .done r → ∃ tok, r = .ok tok := by
  induction h with
  | refl => intro u r hu; simp [authInit] at hu
  | tail hab hstep ih =>
    obtain ⟨t, ht⟩ := hstep
    exact authStep_ok_results hconn hok ht (authReach_inv hab) ih

/-- A task inside the creation region always has an enabled step. -/
theorem authWorking_can_step (env : AuthEnv) (conn : Option Nat)
    (pathOf : Fin 2 → String) {s : AuthSys} (t : Fin 2)
    (hw : (s.tasks t).isWorking = true) :
    ∃ s', AuthStep env conn pathOf t s s' := by
  cases hpc : s.tasks t with
  | wantLock => rw [hpc] at hw; simp [APc.isWorking] at hw
  | done r => rw [hpc] at hw; simp [APc.isWorking] at hw
  | sBegin =>
    cases hsb : env.sBeginOk t with
    | true => exact ⟨_, .sBeginOkStep s hpc hsb⟩
    | false => exact ⟨_, .sBeginFail s hpc hsb⟩
  | cbsAtt =>
    cases hsb : env.cbsAttOk t with
    | true => exact ⟨_, .cbsAttOkStep s hpc hsb⟩
    | false => exact ⟨_, .cbsAttFail s hpc hsb⟩
  | getTok =>
    cases htk : env.tokenOf t with
    | some tok => exact ⟨_, .getTokOkStep s tok hpc htk⟩
    | none => exact ⟨_, .getTokFail s hpc htk⟩
  | cbsAuth tok =>
    cases hca : env.cbsAuthOk t with
    | false => exact ⟨_, .cbsAuthFail s tok hpc hca⟩
    | true =>
      cases hlk : alookup (pathOf t) s.scopes with
      | none => exact ⟨_, .insertFresh s tok hpc hca hlk⟩
      | some old => exact ⟨_, .insertDup s tok old hpc hca hlk⟩

/-- In a state of the machine where no task can step, every task has
finished: the lock discipline cannot deadlock, so concurrent duplicate
authorizations serialize and run to completion. -/
theorem auth_stuck_all_done {env : AuthEnv} {conn : Option Nat}
    {pathOf : Fin 2 → String} {s : AuthSys}
    (hinv : AuthInv pathOf s)
    (hstuck : ¬ ∃ t s', AuthStep env conn pathOf t s s') :
    ∀ t, ∃ r, s.tasks t = .done r := by
  intro t
  cases hpc : s.tasks t with
  | done r => exact ⟨r, rfl⟩
  | wantLock =>
    exfalso
    cases hlock : s.lock with
    | none =>
      cases hconn : conn with
      | none => exact hstuck ⟨t, _, .acquireNoConn s hpc hlock hconn⟩
      | some k =>
        cases hlk : alookup (pathOf t) s.scopes with
        | some tok => exact hstuck ⟨t, _, .acquireCached s k tok hpc hlock hconn hlk⟩
        | none => exact hstuck ⟨t, _, .acquireFresh s k hpc hlock hconn hlk⟩
    | some u =>
      obtain ⟨s', hs⟩ := authWorking_can_step env conn pathOf u (hinv.2.1 u hlock)
      exact hstuck ⟨u, s', hs⟩
  | sBegin =>
    exfalso
    obtain ⟨s', hs⟩ := authWorking_can_step env conn pathOf t
      (by rw [hpc]; simp [APc.isWorking])
    exact hstuck ⟨t, s', hs⟩
  | cbsAtt =>
    exfalso
    obtain ⟨s', hs⟩ := authWorking_can_step env conn pathOf t
      (by rw [hpc]; simp [APc.isWorking])
    exact hstuck ⟨t, s', hs⟩
  | getTok =>
    exfalso
    obtain ⟨s', hs⟩ := authWorking_can_step env conn pathOf t
      (by rw [hpc]; simp [APc.isWorking])
    exact hstuck ⟨t, s', hs⟩
  | cbsAuth tok =>
    exfalso
    obtain ⟨s', hs⟩ := authWorking_can_step env conn pathOf t
      (by rw [hpc]; simp [APc.isWorking])
    exact hstuck ⟨t, s', hs⟩

/-- Environment for the concrete duplicate-authorization run: everything
succeeds, both tasks get the same fresh token. -/
def authEnvOk : AuthEnv :=
  ⟨fun _ => true, fun _ => true, fun _ => some ⟨"tok", 10⟩, fun _ => true⟩

/-- Both tasks authorize the same path. -/
def pathP : Fin 2 → String := fun _ => "P"

/-- The serialized duplicate-authorization run: task 0 creates the entry
while holding the lock; task 1 then hits the cache. -/
def authA1 : AuthSys :=
  { authInit with
    lock := some 0
    tasks := fun u => if u = 0 then .sBegin else authInit.tasks u }

def authA2 : AuthSys :=
  { authA1 with tasks := fun u => if u = 0 then .cbsAtt else authA1.tasks u }

def authA3 : AuthSys :=
  { authA2 with tasks := fun u => if u = 0 then .getTok else authA2.tasks u }

def authA4 : AuthSys :=
  { authA3 with tasks := fun u => if u = 0 then .cbsAuth ⟨"tok", 10⟩ else authA3.tasks u }

def authA5 : AuthSys :=
  { authA4 with
    scopes := (ainsert (pathP 0) ⟨"tok", 10⟩ authA4.scopes).2
    lock := none
    tasks := fun u => if u = 0 then .done (.ok ⟨"tok", 10⟩) else authA4.tasks u }

def authA6 : AuthSys :=
  { authA5 with tasks := fun u => if u = 1 then .done (.ok ⟨"tok", 10⟩) else authA5.tasks u }

theorem authA6_reach : AuthReach authEnvOk (some 0) pathP authInit authA6 := by
  refine Relation.ReflTransGen.head
    ⟨0, AuthStep.acquireFresh authInit 0 rfl rfl rfl rfl⟩ ?_
  refine Relation.ReflTransGen.head ⟨0, AuthStep.sBeginOkStep authA1 rfl rfl⟩ ?_
  refine Relation.ReflTransGen.head ⟨0, AuthStep.cbsAttOkStep authA2 rfl rfl⟩ ?_
  refine Relation.ReflTransGen.head ⟨0, AuthStep.getTokOkStep authA3 ⟨"tok", 10⟩ rfl rfl⟩ ?_
  refine Relation.ReflTransGen.head ⟨0, AuthStep.insertFresh authA4 ⟨"tok", 10⟩ rfl rfl rfl⟩ ?_
  exact Relation.ReflTransGen.single
    ⟨1, AuthStep.acquireCached authA5 0 ⟨"tok", 10⟩ rfl rfl rfl rfl⟩

theorem authA6_stuck : ¬ ∃ t s', AuthStep authEnvOk (some 0) pathP t authA6 s' := by
  have hdone : ∀ u : Fin 2, (authA6.tasks u).isDone = true := by decide
  rintro ⟨t, s', hstep⟩
  have hd := hdone t
  cases hstep <;> simp_all [APc.isDone]

/-- Claim C4: the unable-to-add-authentication-token branch after the
cache insert is unreachable — the token-cache lock is held from the
presence check through the insert, so the path cannot appear in between —
and concurrent duplicate authorizations serialize: whenever the machine
can make no further step (with a connection present and the external
operations succeeding), every task has finished with a token rather than
failing. -/
theorem c4_no_duplicate_token_error :
    (∀ (env : AuthEnv) (conn : Option Nat) (pathOf : Fin 2 → String) (s : AuthSys),
      AuthReach env conn pathOf authInit s →
      ∀ (t : Fin 2) (r : Except ErrorKind AccessToken),
        s.tasks t = .done r → r ≠ .error .unableToAddAuthenticationToken)
  ∧ (∀ (env : AuthEnv) (k : Nat) (pathOf : Fin 2 → String) (s : AuthSys),
      (∀ u, env.sBeginOk u = true ∧ env.cbsAttOk u = true ∧
        (env.tokenOf u).isSome = true ∧ env.cbsAuthOk u = true) →
      AuthReach env (some k) pathOf authInit s →
      (¬ ∃ t s', AuthStep env (some k) pathOf t s s') →
      ∀ t : Fin 2, ∃ tok, s.tasks t = .done (.ok tok)) := by
  constructor
  · intro env conn pathOf s h t r hr
    exact (authReach_inv h).2.2 t r hr
  · intro env k pathOf s hok h hstuck t
    obtain ⟨r, hr⟩ := auth_stuck_all_done (authReach_inv h) hstuck t
    obtain ⟨tok, htok⟩ := authReach_ok_results rfl hok h t r hr
    exact ⟨tok, by rw [hr, htok]⟩

/-- Witness for C4 at the concrete duplicate-authorization run: the task
that inserted finished with the token (not the duplicate-insert error),
and in the final (stuck) state both duplicate authorizations of the same
path have a token. -/
theorem c4_no_duplicate_token_error_witness :
    (authA6.tasks 0 = .done (.ok ⟨"tok", 10⟩) ∧
     (Except.ok (⟨"tok", 10⟩ : AccessToken) :
        Except ErrorKind AccessToken) ≠ .error .unableToAddAuthenticationToken) ∧
    (∃ tok, authA6.tasks 1 = .done (.ok tok)) := by
  refine ⟨⟨by decide, ?_⟩, ?_⟩
  · exact c4_no_duplicate_token_error.1 authEnvOk (some 0) pathP authA6
      authA6_reach 0 _ (by decide)
  · exact c4_no_duplicate_token_error.2 authEnvOk 0 pathP authA6
      (fun u => ⟨rfl, rfl, rfl, rfl⟩) authA6_reach authA6_stuck 1

end EventHubs
